import Mathlib

/-!
Verification development for the aichecker repository.

The development shallowly embeds the outbound-fetch safety core of the
repository: `src/lib/security.ts` (URL safety validator, DNS rebinding
guard, safe fetch wrapper), the rate limiter of `src/lib/checker.ts`,
and the check orchestrator of `src/app/api/check/route.ts`.

JavaScript strings manipulated character by character are modelled as
`List Char` (abbreviated `Str`); free-form text carried around opaquely
(HTML bodies, messages) is modelled as Lean `String`.

Platform behaviour the source relies on (the WHATWG URL parser used by
`new URL(...)`, the `fetch` primitive, DNS lookup, the JS regex engine,
`JSON.parse`) is modelled explicitly where the claims depend on it and
passed in as oracle parameters where they do not.
-/

namespace Security

/-- JavaScript strings handled character-wise are lists of characters. -/
abbrev Str := List Char

/-- Strict split of a character list on the dot character: `splitOnDot "a.b" = ["a","b"]`,
`splitOnDot "" = [""]`.  Mirrors both the WHATWG host parser's "split on U+002E"
and the `^(\d+)\.(\d+)\.(\d+)\.(\d+)$` regex decomposition used by
`isPrivateIPv4` in src/lib/security.ts. -/
def splitOnDot : Str → List Str
  | [] => [[]]
  | '.' :: t => [] :: splitOnDot t
  | c :: t =>
    match splitOnDot t with
    | [] => [[c]]
    | p :: ps => (c :: p) :: ps

/-- Decimal digit test (the regex class `\d`), stated on character codes. -/
def isDigitChar (c : Char) : Bool := 48 ≤ c.toNat ∧ c.toNat ≤ 57

/-- Value of a radix-`r` digit character, `none` when the character is not a
valid digit for the radix (documented for r = 8, 10, 16), stated on
character codes. -/
def digitValue (r : Nat) (c : Char) : Option Nat :=
  if 48 ≤ c.toNat ∧ c.toNat ≤ 57 ∧ c.toNat - 48 < r then some (c.toNat - 48)
  else if r = 16 ∧ 97 ≤ c.toNat ∧ c.toNat ≤ 102 then some (c.toNat - 87)
  else if r = 16 ∧ 65 ≤ c.toNat ∧ c.toNat ≤ 70 then some (c.toNat - 55)
  else none

/-- Fold a list of characters known to be radix-`r` digits into a number,
`none` as soon as a character is not a valid digit. -/
def digitsValue (r : Nat) : Str → Option Nat → Option Nat
  | [], acc => acc
  | c :: t, acc =>
    match acc, digitValue r c with
    | some a, some d => digitsValue r t (some (a * r + d))
    | _, _ => none

/-- Parse a whole string of radix-`r` digits; fails on the empty string or any
invalid digit. -/
def parseRadix (r : Nat) (s : Str) : Option Nat :=
  match s with
  | [] => none
  | _ => digitsValue r s (some 0)

/-- Longest-prefix integer parse in radix `r`, the behaviour of JavaScript
`parseInt(p, r)` on a string without sign or leading whitespace: consume the
longest prefix of valid radix-`r` digits; `none` (NaN) when there is no valid
leading digit. -/
def parseIntPrefix (r : Nat) (s : Str) : Option Nat :=
  match s with
  | [] => none
  | c :: t =>
    match digitValue r c with
    | none => none
    | some d => some (go t d)
where
  /-- Accumulate further digits until the first invalid one. -/
  go : Str → Nat → Nat
    | [], acc => acc
    | c :: t, acc =>
      match digitValue r c with
      | none => acc
      | some d => go t (acc * r + d)

/-- WHATWG URL Standard "IPv4 number parser": `0x`/`0X` prefix selects radix
16 (empty digit string allowed, value 0), a leading `0` on a longer string
selects radix 8 (remaining digits must all be octal), otherwise radix 10;
any invalid digit is a hard failure.  This is part of the platform's
`new URL(...)` hostname handling that src/lib/security.ts relies on. -/
def parseIPv4Number (s : Str) : Option Nat :=
  match s with
  | [] => none
  | '0' :: 'x' :: rest => if rest = [] then some 0 else parseRadix 16 rest
  | '0' :: 'X' :: rest => if rest = [] then some 0 else parseRadix 16 rest
  | '0' :: rest => if rest = [] then some 0 else parseRadix 8 rest
  | _ => parseRadix 10 s

/-- WHATWG URL Standard "ends in a number" check: split the host on dots,
drop one trailing empty part, and test whether the last part is a nonempty
run of decimal digits or parses as an IPv4 number. -/
def endsInNumber (host : Str) : Bool :=
  let parts := splitOnDot host
  match parts.getLast? with
  | none => false
  | some last =>
    if last = [] then
      match (parts.dropLast).getLast? with
      | none => false
      | some l => (l ≠ [] ∧ l.all isDigitChar) ∨ (parseIPv4Number l).isSome
    else
      (last ≠ [] ∧ last.all isDigitChar) ∨ (parseIPv4Number last).isSome

/-- Combine up to four WHATWG IPv4 numbers into the 32-bit address value:
every part but the last contributes one octet, the last covers the remaining
low bytes. -/
def combineIPv4 (ns : List Nat) : Nat :=
  match ns with
  | [] => 0
  | [n] => n
  | n :: rest => n * 256 ^ (ns.length - 1) + combineIPv4 rest

/-- Sequence a list of optional numbers, failing on the first `none`. -/
def allSomeL : List (Option Nat) → Option (List Nat)
  | [] => some []
  | none :: _ => none
  | some n :: t => (allSomeL t).map (fun ns => n :: ns)

/-- WHATWG URL Standard IPv4 parser on a host string: split on dots, drop one
trailing empty part, fail on more than four parts or any part that is not an
IPv4 number, require all but the last part to be at most 255 and the last to
fit in the remaining bytes. -/
def parseIPv4 (host : Str) : Option Nat :=
  let parts0 := splitOnDot host
  let parts := if parts0.getLast? = some [] ∧ parts0.length > 1 then parts0.dropLast else parts0
  if parts.length > 4 then none
  else
    match allSomeL (parts.map parseIPv4Number) with
    | none => none
    | some ns =>
      if ns.dropLast.any (fun n => n > 255) then none
      else
        match ns.getLast? with
        | none => none
        | some last =>
          if last ≥ 256 ^ (5 - ns.length) then none
          else some (combineIPv4 ns)

/-- Decimal digit character for a value below ten (values ten and above do
not occur; the catch-all maps them to the nine digit). -/
def digitChar (n : Nat) : Char :=
  match n with
  | 0 => '0'
  | 1 => '1'
  | 2 => '2'
  | 3 => '3'
  | 4 => '4'
  | 5 => '5'
  | 6 => '6'
  | 7 => '7'
  | 8 => '8'
  | _ => '9'

/-- Fuel-driven body of the decimal printer; the fuel only needs to exceed
the number of digits. -/
def decDigitsAux : Nat → Nat → Str
  | 0, _ => []
  | fuel + 1, n =>
    if n < 10 then [digitChar n]
    else decDigitsAux fuel (n / 10) ++ [digitChar (n % 10)]

/-- Decimal representation of a natural number as characters, no leading
zeros (`decDigits 0 = "0"`). -/
def decDigits (n : Nat) : Str := decDigitsAux (n + 1) n

/-- Dotted decimal quad built from four octet values. -/
def quadStr (a b c d : Nat) : Str :=
  decDigits a ++ '.' :: (decDigits b ++ '.' :: (decDigits c ++ '.' :: decDigits d))

/-- WHATWG IPv4 serializer: dotted decimal quad of the four octets, the
canonical hostname the platform URL object reports for a numeric IPv4
host. -/
def serializeIPv4 (v : Nat) : Str :=
  quadStr (v / 16777216 % 256) (v / 65536 % 256) (v / 256 % 256) (v % 256)

/-- Lowercase an ASCII host string, the effect of the URL parser's
domain-to-ASCII step on plain ASCII hosts. -/
def lowerStr (s : Str) : Str := s.map Char.toLower

/-- Model of the hostname reported by the platform `new URL(...)` object
(restricted to the ASCII, percent-free hosts the claims exercise): bracketed
IPv6 literals pass through, an empty host fails, a host that ends in a number
goes through the WHATWG IPv4 parser (failure makes the URL constructor
throw) and is reported in canonical dotted-quad form, anything else is a
lowercased domain. -/
def canonicalHost (host : Str) : Option Str :=
  if host = [] then none
  else if host.head? = some '[' then some host
  else
    let h := lowerStr host
    if endsInNumber h then (parseIPv4 h).map serializeIPv4 else some h

/-- Input to the URL safety validator: the scheme (with trailing colon, as
written) and the hostname as written inside the URL. -/
structure UrlInput where
  protocol : Str
  host : Str
  deriving DecidableEq, Repr

/-- Parsed URL as the code observes it through `new URL(url)`: the lowercased
`protocol` (with colon) and the canonical `hostname`. -/
structure ParsedUrl where
  protocol : Str
  hostname : Str
  deriving DecidableEq, Repr

/-- Model of `new URL(url)` restricted to the scheme/host components the
safety validator reads; `none` when the constructor throws. -/
def parseUrl (u : UrlInput) : Option ParsedUrl :=
  (canonicalHost u.host).map (fun h => ⟨lowerStr u.protocol, h⟩)

/-- Octet parser of `isPrivateIPv4` (src/lib/security.ts lines 64-72), applied
to each regex group: `0x`/`0X` prefix means `parseInt(p, 16)`, a longer string
with a leading `0` means `parseInt(p, 8)`, otherwise `parseInt(p, 10)`;
`none` models NaN. -/
def jsOctetParse (p : Str) : Option Nat :=
  if p.take 2 = ['0', 'x'] ∨ p.take 2 = ['0', 'X'] then
    parseIntPrefix 16 (p.drop 2)
  else if p.length > 1 ∧ p.head? = some '0' then parseIntPrefix 8 p
  else parseIntPrefix 10 p

/-- Private/reserved-range ladder of `isPrivateIPv4` (src/lib/security.ts
lines 80-90) on the first three octets. -/
def privateRangeLadder (a b c : Nat) : Bool :=
  if a = 10 then true
  else if a = 172 ∧ b ≥ 16 ∧ b ≤ 31 then true
  else if a = 192 ∧ b = 168 then true
  else if a = 127 then true
  else if a = 169 ∧ b = 254 then true
  else if a = 0 then true
  else if a = 100 ∧ b ≥ 64 ∧ b ≤ 127 then true
  else if a = 192 ∧ b = 0 ∧ c = 0 then true
  else if a = 192 ∧ b = 88 ∧ c = 99 then true
  else if a = 198 ∧ b ≥ 18 ∧ b ≤ 19 then true
  else if a ≥ 224 ∧ a ≤ 239 then true
  else false

/-- Embedding of `isPrivateIPv4` (src/lib/security.ts lines 60-93).  The
regex `^(\d+)\.(\d+)\.(\d+)\.(\d+)$` matches exactly when the hostname splits
on dots into four nonempty all-digit groups; each group is parsed by
`jsOctetParse`, a NaN or out-of-range octet counts as private, and the first
three octets go through the range ladder. -/
def isPrivateIPv4 (hostname : Str) : Bool :=
  match splitOnDot hostname with
  | [p1, p2, p3, p4] =>
    if (p1 ≠ [] ∧ p1.all isDigitChar) ∧ (p2 ≠ [] ∧ p2.all isDigitChar) ∧
        (p3 ≠ [] ∧ p3.all isDigitChar) ∧ (p4 ≠ [] ∧ p4.all isDigitChar) then
      let parts := [p1, p2, p3, p4].map jsOctetParse
      if parts.any (fun p => p = none ∨ ∃ v, p = some v ∧ v > 255) then true
      else
        match parts with
        | [some a, some b, some c, _] => privateRangeLadder a b c
        | _ => false
    else false
  | _ => false

/-- Hexadecimal lowercase digit test used by the IPv6-literal regexes. -/
def isHexLower (c : Char) : Bool :=
  ('0' ≤ c ∧ c ≤ '9') ∨ ('a' ≤ c ∧ c ≤ 'f')

/-- Test for the regex `^f[cd][0-9a-f]\x7b2\x7d:/i` on an already lowercased
literal (the `fc00::/7` unique-local block). -/
def fcFdTest (l : Str) : Bool :=
  match l with
  | 'f' :: c1 :: c2 :: c3 :: ':' :: _ =>
    (c1 = 'c' ∨ c1 = 'd') ∧ isHexLower c2 ∧ isHexLower c3
  | _ => false

/-- Test for the regex `^fe[89ab][0-9a-f]:/i` on an already lowercased
literal (the `fe80::/10` link-local block). -/
def feTest (l : Str) : Bool :=
  match l with
  | 'f' :: 'e' :: c1 :: c2 :: ':' :: _ =>
    (c1 = '8' ∨ c1 = '9' ∨ c1 = 'a' ∨ c1 = 'b') ∧ isHexLower c2
  | _ => false

/-- Rejection conditions applied to a bracketed IPv6 literal inside
`isSafeUrl` (src/lib/security.ts lines 25-37): loopback spellings, IPv4-mapped
loopback or private addresses, the `fc00::/7` and `fe80::/10` regexes, and
the unspecified address.  A true value means some branch returned false. -/
def ipv6Reject (lit : Str) : Bool :=
  if lit = "::1".toList ∨ lit = "0:0:0:0:0:0:0:1".toList then true
  else if (lowerStr lit).take 7 = "::ffff:".toList ∧
      (let ipv4Part := lit.drop 7
       ipv4Part = "127.0.0.1".toList ∨ isPrivateIPv4 ipv4Part) then true
  else if fcFdTest (lowerStr lit) then true
  else if feTest (lowerStr lit) then true
  else if lit = "::".toList then true
  else false

/-- Embedding of `isSafeUrl` (src/lib/security.ts lines 11-55).  URL parsing
failure is the catch branch; then the protocol allow-list, the literal
localhost/127.0.0.1 block, the bracketed-IPv6 rejections, `isPrivateIPv4`,
and the all-digit decimal-encoded IP block, in source order. -/
def isSafeUrl (u : UrlInput) : Bool :=
  match parseUrl u with
  | none => false
  | some p =>
    let hostname := p.hostname
    if p.protocol ≠ "http:".toList ∧ p.protocol ≠ "https:".toList then false
    else if hostname = "localhost".toList ∨ hostname = "127.0.0.1".toList then false
    else if hostname.head? = some '[' ∧ ipv6Reject (hostname.drop 1).dropLast then false
    else if isPrivateIPv4 hostname then false
    else if hostname ≠ [] ∧ hostname.all isDigitChar then
      match parseIntPrefix 10 hostname with
      | none => true
      | some num0 =>
        let num := num0 % 4294967296
        if num / 16777216 % 256 = 10 ∨ num / 16777216 % 256 = 127 ∨
            (num / 16777216 % 256 = 192 ∧ num / 65536 % 256 = 168) then false
        else true
    else true

/-- Embedding of `validateDnsResolution` (src/lib/security.ts lines 126-138).
The platform DNS lookup is the oracle `dns`; `none` covers every failure mode
(timeout, NXDOMAIN, network error), all reaching the catch branch; on success
the resolved address is re-checked against the private ranges. -/
def validateDnsResolution (dns : Str → Option Str) (hostname : Str) : Bool :=
  match dns hostname with
  | none => false
  | some address => ! isPrivateIPv4 address

/-- Embedding of `isSafeUrlWithDns` (src/lib/security.ts lines 144-152): the
synchronous check first, then the DNS guard on the parsed hostname, with the
catch branch for a URL that fails to parse. -/
def isSafeUrlWithDns (dns : Str → Option Str) (u : UrlInput) : Bool :=
  if ! isSafeUrl u then false
  else
    match parseUrl u with
    | none => false
    | some p => validateDnsResolution dns p.hostname

/-- HTTP response as `safeFetch` observes it: the status code and the
`Location` header. -/
structure SResponse where
  status : Nat
  location : Option String
  deriving DecidableEq, Repr

/-- Failure modes of `safeFetch`: a rejected `fetch` call, the
`Invalid redirect location` throw, the `Redirect to unsafe URL blocked`
throw, and the platform rejection of a redirect response under
`redirect: "error"`. -/
inductive SFError where
  | network
  | invalidLocation
  | blocked
  | redirectRefused
  deriving DecidableEq, Repr

/-- Redirect statuses for which the platform `fetch` with
`redirect: "error"` rejects. -/
def redirectStatus (n : Nat) : Bool :=
  n = 301 ∨ n = 302 ∨ n = 303 ∨ n = 307 ∨ n = 308

/-- Embedding of `safeFetch` (src/lib/security.ts lines 159-189), returning
the outcome together with the list of URLs actually requested, in order.
The network is the oracle `server` (`none` = the request rejects),
`resolve` models `new URL(location, url)` (`none` = it throws), and `dns` is
the DNS oracle of the guard.  The first request uses `redirect: "manual"`;
non-3xx responses and 3xx responses without a Location header are returned
as-is; otherwise the resolved target is validated and, if safe, requested
exactly once with `redirect: "error"`, under which a redirect answer is a
platform rejection. -/
def safeFetch (server : UrlInput → Option SResponse) (dns : Str → Option Str)
    (resolve : String → UrlInput → Option UrlInput) (url : UrlInput) :
    Except SFError SResponse × List UrlInput :=
  match server url with
  | none => (.error .network, [url])
  | some response =>
    if response.status < 300 ∨ response.status ≥ 400 then (.ok response, [url])
    else
      match response.location with
      | none => (.ok response, [url])
      | some location =>
        match resolve location url with
        | none => (.error .invalidLocation, [url])
        | some resolvedUrl =>
          if ! isSafeUrlWithDns dns resolvedUrl then (.error .blocked, [url])
          else
            match server resolvedUrl with
            | none => (.error .network, [url, resolvedUrl])
            | some r2 =>
              if redirectStatus r2.status then (.error .redirectRefused, [url, resolvedUrl])
              else (.ok r2, [url, resolvedUrl])

end Security

namespace RateLimit

/-- Record of the fixed-window counter (src/lib/checker.ts lines 209-212). -/
structure RateLimitRecord where
  count : Nat
  resetTime : Nat
  deriving DecidableEq, Repr

/-- Requests allowed per window (src/lib/checker.ts line 214). -/
def RATE_LIMIT : Nat := 10

/-- Window length in milliseconds (src/lib/checker.ts line 215). -/
def RATE_WINDOW : Nat := 60 * 1000

/-- Minimum milliseconds between lazy cleanup sweeps (src/lib/checker.ts line 216). -/
def CLEANUP_INTERVAL : Nat := 5 * 60 * 1000

/-- Hard cap on the number of table entries (src/lib/checker.ts line 217). -/
def MAX_ENTRIES : Nat := 100000

/-- State of the `RateLimiter` class: the `Map` (modelled as an
insertion-ordered association list, matching JS `Map` iteration order) and
the `lastCleanup` timestamp. -/
structure RateLimiter where
  map : List (String × RateLimitRecord)
  lastCleanup : Nat
  deriving Repr

/-- Freshly constructed limiter: empty map, `lastCleanup = Date.now()`. -/
def initLimiter (t0 : Nat) : RateLimiter := ⟨[], t0⟩

/-- JS `Map.prototype.get` on the association-list model. -/
def mapGet (m : List (String × RateLimitRecord)) (k : String) : Option RateLimitRecord :=
  match m with
  | [] => none
  | (k', v) :: t => if k' = k then some v else mapGet t k

/-- JS `Map.prototype.set`: update in place when the key exists, append
otherwise. -/
def mapSet (m : List (String × RateLimitRecord)) (k : String) (v : RateLimitRecord) :
    List (String × RateLimitRecord) :=
  match m with
  | [] => [(k, v)]
  | (k', v') :: t => if k' = k then (k', v) :: t else (k', v') :: mapSet t k v

/-- Embedding of `maybeCleanup` (src/lib/checker.ts lines 279-296): a no-op
until `CLEANUP_INTERVAL` wall-clock milliseconds have passed since the last
sweep, then every expired record is removed and `lastCleanup` is set to now.
(JS subtraction of a later `lastCleanup` yields a negative number, below the
interval; truncated `Nat` subtraction agrees.) -/
def maybeCleanup (s : RateLimiter) (now : Nat) : RateLimiter :=
  if now - s.lastCleanup < CLEANUP_INTERVAL then s
  else ⟨s.map.filter (fun e => ! (now > e.2.resetTime)), now⟩

/-- Embedding of the forced `cleanup` entry point (src/lib/checker.ts lines
301-309). -/
def cleanup (s : RateLimiter) (now : Nat) : RateLimiter :=
  ⟨s.map.filter (fun e => ! (now > e.2.resetTime)), now⟩

/-- Result of `RateLimiter.check`. -/
structure RLOutcome where
  allowed : Bool
  retryAfter : Option Nat
  remaining : Nat
  deriving DecidableEq, Repr

/-- Embedding of `RateLimiter.check` (src/lib/checker.ts lines 227-256).
The lazy cleanup runs first; a missing record hits the hard cap when the map
is full, otherwise a missing or expired record starts a fresh window with
count 1; a live record is incremented and the call is denied with
`retryAfter = ceil((resetTime - now)/1000)` seconds once the count exceeds
the limit.  `Date.now()` is the `now` argument. -/
def check (s : RateLimiter) (ip : String) (now : Nat) : RLOutcome × RateLimiter :=
  let s1 := maybeCleanup s now
  match mapGet s1.map ip with
  | none =>
    if s1.map.length ≥ MAX_ENTRIES then (⟨false, some 60, 0⟩, s1)
    else (⟨true, none, RATE_LIMIT - 1⟩, ⟨mapSet s1.map ip ⟨1, now + RATE_WINDOW⟩, s1.lastCleanup⟩)
  | some record =>
    if now > record.resetTime then
      (⟨true, none, RATE_LIMIT - 1⟩, ⟨mapSet s1.map ip ⟨1, now + RATE_WINDOW⟩, s1.lastCleanup⟩)
    else
      let incremented : RateLimitRecord := ⟨record.count + 1, record.resetTime⟩
      let s2 : RateLimiter := ⟨mapSet s1.map ip incremented, s1.lastCleanup⟩
      if incremented.count > RATE_LIMIT then
        (⟨false, some ((record.resetTime - now + 999) / 1000), 0⟩, s2)
      else (⟨true, none, RATE_LIMIT - incremented.count⟩, s2)

/-- Result of `RateLimiter.getInfo`. -/
structure RLInfo where
  count : Nat
  resetTime : Nat
  remaining : Nat
  deriving DecidableEq, Repr

/-- Embedding of `RateLimiter.getInfo` (src/lib/checker.ts lines 261-274),
returned together with the state after the call; the method body performs no
writes, so the state is returned unchanged, statement for statement. -/
def getInfo (s : RateLimiter) (ip : String) (now : Nat) : RLInfo × RateLimiter :=
  match mapGet s.map ip with
  | none => (⟨0, now + RATE_WINDOW, RATE_LIMIT⟩, s)
  | some record =>
    if now > record.resetTime then (⟨0, now + RATE_WINDOW, RATE_LIMIT⟩, s)
    else (⟨record.count, record.resetTime, RATE_LIMIT - record.count⟩, s)

/-- One call against the limiter, for stating whole-history invariants. -/
inductive Op where
  | check (ip : String) (now : Nat)
  | getInfo (ip : String) (now : Nat)
  | cleanup (now : Nat)
  deriving Repr

/-- Apply one operation to the limiter state. -/
def applyOp (s : RateLimiter) : Op → RateLimiter
  | .check ip now => (check s ip now).2
  | .getInfo ip now => (getInfo s ip now).2
  | .cleanup now => cleanup s now

/-- Run a sequence of operations from a state. -/
def runOps (s : RateLimiter) : List Op → RateLimiter
  | [] => s
  | op :: t => runOps (applyOp s op) t

/-- Outcomes of a sequence of `check` calls for one key, with the final
state. -/
def checkSeq (s : RateLimiter) (ip : String) : List Nat → List RLOutcome × RateLimiter
  | [] => ([], s)
  | now :: t =>
    let (o, s') := check s ip now
    let (os, s'') := checkSeq s' ip t
    (o :: os, s'')

end RateLimit

namespace Route

/-- Values stored in a check result's `data` object (src/app/api/check/route.ts
stores strings, booleans, numbers and string arrays there). -/
inductive DVal where
  | s (v : String)
  | b (v : Bool)
  | n (v : Nat)
  | ls (v : List String)
  deriving DecidableEq, Repr

/-- The `data` member of a check result: a JS object, modelled as a
key-ordered association list. -/
abbrev Data := List (String × DVal)

/-- Lookup of a member of a `data` object. -/
def lookupData (d : Data) (k : String) : Option DVal :=
  (d.find? (fun e => e.1 = k)).map (fun e => e.2)

/-- JS object spread `\x7b...a, ...b\x7d`: the keys of `a` in order with
values overridden by `b`, then the keys only in `b`, in their order. -/
def spreadMerge (a b : Data) : Data :=
  a.map (fun e =>
    match b.find? (fun e' => e'.1 = e.1) with
    | some e' => (e.1, e'.2)
    | none => e) ++
  b.filter (fun e' => ! a.any (fun e => e.1 = e'.1))

/-- The `CheckResult` interface of src/app/api/check/route.ts lines 4-11. -/
structure CheckResult where
  found : Bool
  details : String
  count : Option Nat := none
  score : Option Nat := none
  data : Data := []
  warnings : Option (List String) := none
  deriving DecidableEq, Repr

/-- JSON value as far as `checkSchema` inspects one: `JSON.parse` of a
JSON-LD block yields `null` or some other value carrying an optional string
`@type` member (`none` covers both an absent `@type` and the non-string
`@type` values no claim depends on). -/
inductive Json where
  | null
  | val (atType : Option String)
  deriving DecidableEq, Repr

/-- Exception escaping a check function; the member access `s["@type"]`
throws a TypeError when `s` is `null`. -/
inductive JsExn where
  | typeError
  deriving DecidableEq, Repr

/-- HTTP response as the route's checks observe one: `ok`, `status` and the
body text (the platform `fetch` plus `text()` collapsed into one oracle
answer). -/
structure HttpResp where
  ok : Bool
  status : Nat
  text : String
  deriving DecidableEq, Repr

/-- Oracles for the platform effects the route's checks perform.  Fetch
oracles answer `none` when the request (or reading its body) rejects.  The
regex oracles model the platform's case-insensitive regex engine applied to
the pattern sources appearing in the route; `jsonLd` models the JSON-LD
script-block regex extraction composed with `JSON.parse` per block (`none` =
that block failed to parse); `sitemapDirective` models
`robotsContent.match(/sitemap:\s*(.+)/i)` returning the first capture. -/
structure Env where
  pageFetch : String → Option HttpResp
  robotsFetch : String → Option HttpResp
  llmsFetch : String → Option HttpResp
  sitemapFetch : String → Option HttpResp
  speedLoad : String → Option Nat
  jsonLd : String → List (Option Json)
  regexTest : String → String → Bool
  regexCount : String → String → Nat
  sitemapDirective : String → Option String

/-- Occurrence scan over character lists: whether `pat` occurs in `l`. -/
def listContainsPat (l pat : List Char) : Bool :=
  match l with
  | [] => pat.isPrefixOf []
  | _ :: t => pat.isPrefixOf l || listContainsPat t pat

/-- Literal substring containment, the behaviour of JS
`String.prototype.includes`. -/
def containsSubstr (s pat : String) : Bool := listContainsPat s.data pat.data

/-- Count of non-overlapping occurrences of `pat` in `l`, leftmost first and
resuming after each match, the behaviour of a global regex scan for a
literal pattern. -/
def listCountPat (l pat : List Char) (fuel : Nat) : Nat :=
  match fuel with
  | 0 => 0
  | fuel + 1 =>
    match l with
    | [] => 0
    | _ :: t =>
      if pat ≠ [] ∧ pat.isPrefixOf l then 1 + listCountPat (l.drop pat.length) pat fuel
      else listCountPat t pat fuel

/-- Number of non-overlapping literal occurrences, the behaviour of
`(s.match(/pat/g) || []).length` for a literal pattern. -/
def countSubstr (s pat : String) : Nat := listCountPat s.data pat.data s.data.length

/-- Whitespace characters trimmed by the model of `String.prototype.trim`
(the ASCII ones; the inputs exercised contain no exotic whitespace). -/
def isTrimmable (c : Char) : Bool := c = ' ' ∨ c = '\t' ∨ c = '\n' ∨ c = '\r'

/-- Model of JS `String.prototype.trim`. -/
def strTrim (s : String) : String :=
  ⟨((s.data.dropWhile isTrimmable).reverse.dropWhile isTrimmable).reverse⟩

/-- Model of JS `String.prototype.toLowerCase` on the ASCII strings the
checks lower-case. -/
def strToLower (s : String) : String := ⟨s.data.map Char.toLower⟩

/-- Model of JS `slice(0, n)`. -/
def strTake (s : String) (n : Nat) : String := ⟨s.data.take n⟩

/-- Model of JS `slice(n)`. -/
def strDrop (s : String) (n : Nat) : String := ⟨s.data.drop n⟩

/-- Model of JS `slice(0, -n)` (drop from the right). -/
def strDropRight (s : String) (n : Nat) : String := ⟨s.data.take (s.data.length - n)⟩

/-- Model of JS `String.prototype.startsWith`. -/
def strStartsWith (s pat : String) : Bool := pat.data.isPrefixOf s.data

/-- Model of JS `String.prototype.endsWith`. -/
def strEndsWith (s pat : String) : Bool := pat.data.isSuffixOf s.data

/-- Model of JS `Array.prototype.join(sep)`. -/
def joinSep (sep : String) : List String → String
  | [] => ""
  | [x] => x
  | x :: t => x ++ sep ++ joinSep sep t

/-- Member access `s["@type"]`: throws on `null`. -/
def jsAtType : Json → Except JsExn (Option String)
  | .null => .error .typeError
  | .val t => .ok t

/-- The `schemas.map(s => s["@type"])` step of `checkSchema`, propagating the
first TypeError. -/
def getTypes : List Json → Except JsExn (List (Option String))
  | [] => .ok []
  | j :: t =>
    match jsAtType j, getTypes t with
    | .ok ty, .ok rest => .ok (ty :: rest)
    | .error e, _ => .error e
    | _, .error e => .error e

/-- Fuel-driven body of the first-occurrence deduplication; the list length
is enough fuel. -/
def uniqueFirstAux : Nat → List String → List String
  | 0, _ => []
  | _, [] => []
  | fuel + 1, a :: t => a :: uniqueFirstAux fuel (t.filter (fun x => x ≠ a))

/-- First-occurrence deduplication, the behaviour of
`[...new Set(xs)]`. -/
def uniqueFirst (l : List String) : List String := uniqueFirstAux l.length l

/-- Schema types considered important (src/app/api/check/route.ts line 71). -/
def importantTypes : List String :=
  ["Organization", "WebSite", "Article", "Product", "LocalBusiness", "FAQPage"]

/-- Embedding of `checkSchema` (src/app/api/check/route.ts lines 56-94).
Blocks that fail `JSON.parse` are skipped by the inner catch; the `@type`
accesses may throw (there is no outer try/catch in this check), which is why
its result is an `Except`. -/
def checkSchema (env : Env) (html : String) : Except JsExn CheckResult :=
  let schemas := (env.jsonLd html).filterMap id
  match getTypes schemas with
  | .error e => .error e
  | .ok rawTypes =>
    let schemaTypes := (rawTypes.filterMap id).filter (fun t => t ≠ "")
    let uniqueTypes := uniqueFirst schemaTypes
    let hasImportant := uniqueTypes.any (fun t => importantTypes.contains t)
    if schemas = [] then
      .ok { found := false, score := some 0, details := "ไม่พบ Schema.org JSON-LD",
            data := [("types", .ls [])] }
    else
      .ok { found := true, score := some (if hasImportant then 100 else 70),
            count := some schemas.length,
            details := "พบ Schema " ++ toString schemas.length ++ " รายการ (" ++
              joinSep (", ") uniqueTypes ++ ")",
            data := [("types", .ls uniqueTypes), ("hasImportantTypes", .b hasImportant)],
            warnings := if ! hasImportant then some ["ควรเพิ่ม Organization หรือ WebSite Schema"] else none }

/-- Embedding of `checkRobotsTxt` (src/app/api/check/route.ts lines 97-146);
the catch branch covers a rejected fetch. -/
def checkRobotsTxt (env : Env) (url : String) : CheckResult :=
  match env.robotsFetch (url ++ "/robots.txt") with
  | none => { found := false, score := some 0, details := "ไม่สามารถเข้าถึง robots.txt ได้", data := [] }
  | some response =>
    if ! response.ok then
      { found := false, score := some 0, details := "ไม่พบ robots.txt", data := [] }
    else
      let content := response.text
      let hasSitemap := containsSubstr (strToLower content) ("sitemap")
      let blocksAI := containsSubstr content ("GPTBot") ∧ containsSubstr content ("Disallow: /")
      let score := 100 - (if ! hasSitemap then 20 else 0) - (if blocksAI then 30 else 0)
      let warnings := (if ! hasSitemap then ["ควรระบุ Sitemap ใน robots.txt"] else []) ++
        (if blocksAI then ["อาจบล็อค AI crawlers (GPTBot)"] else [])
      { found := true, score := some score,
        details := "พบ robots.txt " ++ (if hasSitemap then "(มี Sitemap)" else "(ไม่มี Sitemap)"),
        data := [("hasSitemap", .b hasSitemap), ("blocksAI", .b blocksAI),
                 ("content", .s (strTake content 500))],
        warnings := if warnings.length > 0 then some warnings else none }

/-- Embedding of `checkLlmsTxt` (src/app/api/check/route.ts lines 149-197). -/
def checkLlmsTxt (env : Env) (url : String) : CheckResult :=
  match env.llmsFetch (url ++ "/llms.txt") with
  | none => { found := false, score := some 0, details := "ไม่พบ llms.txt", data := [] }
  | some response =>
    if response.ok then
      let content := response.text
      let isHTML := strStartsWith (strToLower (strTrim content)) ("<!doctype") ∨
        strStartsWith (strToLower (strTrim content)) ("<html") ∨
        containsSubstr (strToLower content) ("<head>") ∨
        containsSubstr (strToLower content) ("<body>")
      if isHTML then
        { found := false, score := some 0, details := "ไม่พบ llms.txt (เว็บตอบกลับด้วย HTML แทน)", data := [] }
      else
        { found := true, score := some 100,
          details := "พบ llms.txt (" ++ toString content.data.length ++ " ตัวอักษร)",
          data := [("content", .s (strTake content 300))] }
    else
      { found := false, score := some 0,
        details := "ไม่พบ llms.txt (แนะนำให้สร้าง - มาตรฐานใหม่สำหรับ AI)", data := [] }

/-- Embedding of `checkSitemap` (src/app/api/check/route.ts lines 200-261):
the sitemap URL defaults to `/sitemap.xml` and is overridden by a
`Sitemap:` directive found in the robots content when one was passed. -/
def checkSitemap (env : Env) (url : String) (robotsContent : Option String) : CheckResult :=
  let sitemapUrl :=
    match robotsContent with
    | some rc =>
      match env.sitemapDirective rc with
      | some m => strTrim m
      | none => url ++ "/sitemap.xml"
    | none => url ++ "/sitemap.xml"
  match env.sitemapFetch sitemapUrl with
  | none => { found := false, score := some 0, details := "ไม่พบ Sitemap", data := [] }
  | some response =>
    if response.ok then
      let content := response.text
      let isHTML := strStartsWith (strToLower (strTrim content)) ("<!doctype") ∨
        strStartsWith (strToLower (strTrim content)) ("<html") ∨
        containsSubstr (strToLower content) ("<head>") ∨
        containsSubstr (strToLower content) ("<body>")
      if isHTML then
        { found := false, score := some 0, details := "ไม่พบ Sitemap.xml (เว็บตอบกลับด้วย HTML แทน)", data := [] }
      else
        let urlCount := countSubstr content ("<url>")
        let hasLastmod := containsSubstr content ("<lastmod>")
        { found := true, score := some (if hasLastmod then 100 else 80),
          count := some urlCount,
          details := "พบ Sitemap (" ++ toString urlCount ++ " URLs) " ++
            (if hasLastmod then "+ Lastmod" else ""),
          data := [("url", .s sitemapUrl), ("hasLastmod", .b hasLastmod)],
          warnings := if ! hasLastmod then some ["ควรเพิ่ม <lastmod> ในแต่ละ URL"] else none }
    else
      { found := false, score := some 0, details := "ไม่พบ Sitemap.xml", data := [] }

/-- Pattern source for an Open Graph `property` meta-tag test
(src/app/api/check/route.ts lines 276, 282). -/
def ogPat (tag : String) : String :=
  "<meta[^>]*property=\"" ++ tag ++ "\"[^>]*content=\"([^\"]*)\""

/-- Pattern source for a Twitter `name` meta-tag test
(src/app/api/check/route.ts line 288). -/
def twPat (tag : String) : String :=
  "<meta[^>]*name=\"" ++ tag ++ "\"[^>]*content=\"([^\"]*)\""

/-- Critical OG tags (src/app/api/check/route.ts line 266). -/
def criticalOgTags : List String := ["og:title", "og:description", "og:image"]

/-- Secondary OG tags (line 267). -/
def otherOgTags : List String := ["og:url", "og:type"]

/-- Twitter card tags (line 268). -/
def twitterTags : List String := ["twitter:card", "twitter:title", "twitter:description"]

/-- Embedding of `checkOpenGraph` (src/app/api/check/route.ts lines
264-358). -/
def checkOpenGraph (env : Env) (html : String) : CheckResult :=
  let foundCritical := criticalOgTags.filter (fun tag => env.regexTest (ogPat tag) html)
  let foundOther := otherOgTags.filter (fun tag => env.regexTest (ogPat tag) html)
  let foundTwitter := twitterTags.filter (fun tag => env.regexTest (twPat tag) html)
  let criticalCount := foundCritical.length
  let otherCount := foundOther.length
  let twitterComplete := foundTwitter.length ≥ 2
  let twitterPartial := foundTwitter.length ≥ 1
  let sp : Nat × String :=
    if criticalCount = 3 ∧ otherCount = 2 ∧ twitterComplete then (100, "สมบูรณ์")
    else if criticalCount = 3 ∧ otherCount ≥ 1 ∧ twitterComplete then (90, "ดีมาก")
    else if criticalCount = 3 ∧ twitterComplete then (80, "ดี")
    else if criticalCount = 3 ∧ twitterPartial then (70, "ค่อนข้างดี")
    else if criticalCount = 3 then (60, "พอใช้")
    else if criticalCount = 2 ∧ twitterPartial then (50, "ขาดบางส่วน")
    else if criticalCount = 2 then (40, "ขาดบางส่วน")
    else if criticalCount = 1 then (20, "ไม่สมบูรณ์")
    else (0, "ไม่มี")
  let missingCritical := criticalOgTags.filter (fun t => ! foundCritical.contains t)
  let missingOther := otherOgTags.filter (fun t => ! foundOther.contains t)
  let warnings :=
    (if missingCritical.length > 0 then ["ขาดสำคัญ: " ++ joinSep (", ") missingCritical] else []) ++
    (if missingOther.length > 0 then ["ขาดรอง: " ++ joinSep (", ") missingOther] else []) ++
    (if ! twitterComplete then ["ควรเพิ่ม Twitter Card tags"] else [])
  let foundOg := foundCritical ++ foundOther
  { found := criticalCount > 0, score := some sp.1,
    count := some (foundOg.length + foundTwitter.length),
    details := "OG: " ++ toString criticalCount ++ "/3 สำคัญ + " ++ toString otherCount ++
      "/2 รอง, Twitter: " ++ toString foundTwitter.length ++ "/3 (" ++ sp.2 ++ ")",
    data := [("critical", .ls foundCritical), ("other", .ls foundOther),
             ("twitter", .ls foundTwitter)],
    warnings := if warnings.length > 0 then some warnings else none }

/-- Semantic elements probed by `checkSemanticHTML` (src/app/api/check/route.ts
line 362). -/
def semanticElements : List String :=
  ["<header", "<main", "<article", "<section", "<footer", "<nav", "<aside"]

/-- Embedding of `checkSemanticHTML` (src/app/api/check/route.ts lines
361-389); `new RegExp(el, "i").test(html)` on these literal patterns is
case-insensitive substring containment. -/
def checkSemanticHTML (html : String) : CheckResult :=
  let found := (semanticElements.filter
    (fun el => containsSubstr (strToLower html) (strToLower el))).map (fun el => strDrop el 1)
  let hasMain := containsSubstr html ("<main")
  let hasHeader := containsSubstr html ("<header")
  let hasArticleOrSection := containsSubstr html ("<article") ∨ containsSubstr html ("<section")
  let score : Nat :=
    if hasMain ∧ hasHeader ∧ hasArticleOrSection then 100
    else if hasMain ∧ hasHeader then 80
    else if found.length ≥ 3 then 60
    else if found.length > 0 then 40
    else 20
  { found := found.length > 0, score := some score, count := some found.length,
    details := "พบ Semantic Elements: " ++
      (if found = [] then "ไม่พบ" else joinSep (", ") found),
    data := [("elements", .ls found)],
    warnings := if ! hasMain then some ["ควรใช้ <main> สำหรับเนื้อหาหลัก"] else none }

/-- Embedding of `checkHeadingHierarchy` (src/app/api/check/route.ts lines
392-425); the three `<hN[^>]*>` match counts come from the regex-count
oracle.  The deductions keep the score nonnegative, so `Math.max(0, score)`
agrees with truncated subtraction. -/
def checkHeadingHierarchy (env : Env) (html : String) : CheckResult :=
  let h1Count := env.regexCount ("<h1[^>]*>") html
  let h2Count := env.regexCount ("<h2[^>]*>") html
  let h3Count := env.regexCount ("<h3[^>]*>") html
  let w1 : List String :=
    if h1Count = 0 then ["ไม่พบ H1 - ควรมี 1 H1 ต่อหน้า"]
    else if h1Count > 1 then ["พบ " ++ toString h1Count ++ " H1 - ควรมีแค่ 1 อัน"]
    else []
  let w2 : List String :=
    if h2Count = 0 ∧ h1Count > 0 then ["ควรมี H2 ย่อยอย่างน้อย 1 อัน"] else []
  let score : Nat :=
    100 - (if h1Count = 0 then 40 else if h1Count > 1 then 20 else 0) -
      (if h2Count = 0 ∧ h1Count > 0 then 10 else 0)
  let warnings := w1 ++ w2
  { found := h1Count > 0, score := some score,
    count := some (h1Count + h2Count + h3Count),
    details := "H1: " ++ toString h1Count ++ ", H2: " ++ toString h2Count ++
      ", H3: " ++ toString h3Count,
    data := [("h1", .n h1Count), ("h2", .n h2Count), ("h3", .n h3Count)],
    warnings := if warnings.length > 0 then some warnings else none }

/-- FAQ pattern sources (src/app/api/check/route.ts lines 433-439). -/
def faqPatterns : List String :=
  ["<details\\s*>", "class=\"[^\"]*faq", "class=\"[^\"]*accordion",
   "<h[2-4][^>]*>.*(คำถาม|FAQ|ถามบ่อย|Q&A).*", "class=\"[^\"]*question"]

/-- Embedding of `checkFAQBlocks` (src/app/api/check/route.ts lines
428-462). -/
def checkFAQBlocks (env : Env) (html : String) : CheckResult :=
  let hasFAQSchema := containsSubstr html ("\"@type\": \"FAQPage\"") ∨
    containsSubstr html ("\"@type\":\"FAQPage\"")
  let patternMatches := (faqPatterns.filter (fun p => env.regexTest p html)).length
  let score : Nat :=
    if hasFAQSchema then 100
    else if patternMatches ≥ 2 then 60
    else if patternMatches = 1 then 40
    else 0
  { found := hasFAQSchema ∨ patternMatches > 0, score := some score,
    details :=
      if hasFAQSchema then "พบ FAQPage Schema"
      else if patternMatches > 0 then "พบรูปแบบ FAQ (" ++ toString patternMatches ++ " patterns)"
      else "ไม่พบ FAQ/QA blocks",
    data := [("hasFAQSchema", .b hasFAQSchema), ("patternMatches", .n patternMatches)] }

/-- Embedding of `checkPageSpeed` (src/app/api/check/route.ts lines 465-498);
the oracle yields the measured load time, `none` when the fetch rejects. -/
def checkPageSpeed (env : Env) (url : String) : CheckResult :=
  match env.speedLoad url with
  | none => { found := false, score := some 0, details := "ไม่สามารถวัดความเร็วได้", data := [] }
  | some loadTime =>
    let score : Nat :=
      if loadTime < 1000 then 100
      else if loadTime < 2000 then 80
      else if loadTime < 3000 then 60
      else if loadTime < 5000 then 40
      else 20
    { found := true, score := some score,
      details := "โหลดหน้าเว็บ " ++ toString loadTime ++ "ms",
      data := [("loadTime", .n loadTime),
               ("note", .s "ใช้ Google PSI API สำหรับผลลัพธ์ที่แม่นยำกว่า")],
      warnings := if loadTime > 3000 then some ["เว็บโหลดช้า ควรปรับปรุง"] else none }

/-- Embedding of `checkAuthorAuthority` (src/app/api/check/route.ts lines
501-523); `(passedChecks / 4) * 100` is exact for 0..4, so natural-number
arithmetic agrees with the JS float. -/
def checkAuthorAuthority (env : Env) (html : String) : CheckResult :=
  let hasAuthor := env.regexTest ("<meta[^>]*name=\"author\"[^>]*>") html ||
    env.regexTest ("class=\"[^\"]*author") html
  let hasPublisher := env.regexTest ("<meta[^>]*name=\"publisher\"[^>]*>") html ||
    containsSubstr html ("\"@type\": \"Organization\"")
  let hasByline := env.regexTest ("(เขียนโดย|by|author)") html &&
    (env.regexTest ("class=\"[^\"]*byline") html ||
     env.regexTest ("<span[^>]*class=\"[^\"]*author") html)
  let hasAuthorBio := env.regexTest ("(ประวัติ|bio|about.*author)") html &&
    env.regexTest ("class=\"[^\"]*bio") html
  let passedChecks := ([hasAuthor, hasPublisher, hasByline, hasAuthorBio].filter id).length
  let score := passedChecks * 100 / 4
  let mark := fun (b : Bool) => if b then "✓" else "✗"
  let warnings := (if ! hasAuthor then ["ควาระบุชื่อผู้เขียน"] else []) ++
    (if ! hasPublisher then ["ควาระบุ Publisher/Organization"] else [])
  { found := passedChecks ≥ 2, score := some score,
    details := "Author: " ++ mark hasAuthor ++ ", Publisher: " ++ mark hasPublisher ++
      ", Byline: " ++ mark hasByline ++ ", Bio: " ++ mark hasAuthorBio,
    data := [("hasAuthor", .b hasAuthor), ("hasPublisher", .b hasPublisher),
             ("hasByline", .b hasByline), ("hasAuthorBio", .b hasAuthorBio)],
    warnings := if warnings.length > 0 then some warnings else none }

/-- The ten check results, fields in the order of the `checks` object literal
of src/app/api/check/route.ts lines 727-738. -/
structure Checks where
  schema : CheckResult
  robotsTxt : CheckResult
  llmsTxt : CheckResult
  sitemap : CheckResult
  openGraph : CheckResult
  semanticHTML : CheckResult
  headingHierarchy : CheckResult
  faqBlocks : CheckResult
  pageSpeed : CheckResult
  authorAuthority : CheckResult
  deriving DecidableEq, Repr

/-- Entries of the `checks` object in insertion order, as `Object.entries`
and `Object.values` observe them. -/
def checksList (c : Checks) : List (String × CheckResult) :=
  [("schema", c.schema), ("robotsTxt", c.robotsTxt), ("llmsTxt", c.llmsTxt),
   ("sitemap", c.sitemap), ("openGraph", c.openGraph), ("semanticHTML", c.semanticHTML),
   ("headingHierarchy", c.headingHierarchy), ("faqBlocks", c.faqBlocks),
   ("pageSpeed", c.pageSpeed), ("authorAuthority", c.authorAuthority)]

/-- The `check.score || 0` idiom. -/
def scoreD (c : CheckResult) : Nat := c.score.getD 0

/-- JS comparison `x! < n` where `x` may be undefined: undefined compares
false. -/
def jsLtOpt (s : Option Nat) (n : Nat) : Bool :=
  match s with
  | some v => decide (v < n)
  | none => false

/-- JS comparison `x! >= n` where `x` may be undefined: undefined compares
false. -/
def jsGeOpt (s : Option Nat) (n : Nat) : Bool :=
  match s with
  | some v => decide (v ≥ n)
  | none => false

/-- Embedding of `calculateOverallScore` (src/app/api/check/route.ts lines
526-547) with its weight table (schema 20, robotsTxt 15, llmsTxt 15,
sitemap 10, openGraph 15, semanticHTML 5, headingHierarchy 5, faqBlocks 5,
pageSpeed 5, authorAuthority 5).  The float sum of `score * (weight/100)` is
the exact rational `S/100`, and `Math.round` (half up) of it is
`(S + 50) / 100` in integers. -/
def calculateOverallScore (c : Checks) : Nat :=
  (scoreD c.schema * 20 + scoreD c.robotsTxt * 15 + scoreD c.llmsTxt * 15 +
   scoreD c.sitemap * 10 + scoreD c.openGraph * 15 + scoreD c.semanticHTML * 5 +
   scoreD c.headingHierarchy * 5 + scoreD c.faqBlocks * 5 + scoreD c.pageSpeed * 5 +
   scoreD c.authorAuthority * 5 + 50) / 100

/-- Grades of src/app/api/check/route.ts line 16. -/
inductive Grade where
  | excellent
  | good
  | fair
  | poor
  deriving DecidableEq, Repr

/-- Embedding of `getGrade` (src/app/api/check/route.ts lines 550-555). -/
def getGrade (score : Nat) : Grade :=
  if score ≥ 90 then .excellent
  else if score ≥ 70 then .good
  else if score ≥ 50 then .fair
  else .poor

/-- Recommendation priorities (src/app/api/check/route.ts line 39). -/
inductive Priority where
  | critical
  | high
  | medium
  | low
  deriving DecidableEq, Repr

/-- The `Recommendation` interface (src/app/api/check/route.ts lines 38-43). -/
structure Recommendation where
  priority : Priority
  category : String
  message : String
  action : String
  deriving DecidableEq, Repr

/-- The `warnings?.some(w => w.includes(pat))` idiom: false when `warnings`
is undefined. -/
def warningsInclude (c : CheckResult) (pat : String) : Bool :=
  match c.warnings with
  | some ws => ws.any (fun w => containsSubstr w pat)
  | none => false

/-- Embedding of `generateRecommendations` (src/app/api/check/route.ts lines
558-659), each push translated in order. -/
def generateRecommendations (c : Checks) : List Recommendation :=
  (if ! c.schema.found || jsLtOpt c.schema.score 80 then
    [⟨.critical, "Schema.org", "ไม่พบ Schema.org JSON-LD หรือไม่สมบูรณ์",
      "ติดตั้ง Schema.org JSON-LD (Organization, WebSite)"⟩] else []) ++
  (if ! c.llmsTxt.found then
    [⟨.high, "llms.txt", "ไม่พบไฟล์ llms.txt",
      "สร้างไฟล์ llms.txt ตามมาตรฐานใหม่ของ Answer.AI"⟩] else []) ++
  (if ! c.robotsTxt.found then
    [⟨.critical, "robots.txt", "ไม่พบ robots.txt",
      "สร้างไฟล์ robots.txt และระบุ Sitemap"⟩]
   else if warningsInclude c.robotsTxt ("GPTBot") then
    [⟨.high, "robots.txt", "อาจบล็อค AI crawlers",
      "ตรวจสอบว่าไม่ได้บล็อค GPTBot, ChatGPT-User"⟩] else []) ++
  (if ! c.sitemap.found then
    [⟨.high, "Sitemap", "ไม่พบ Sitemap.xml",
      "สร้าง Sitemap.xml และระบุใน robots.txt"⟩] else []) ++
  (if ! c.openGraph.found || jsLtOpt c.openGraph.score 80 then
    [⟨.medium, "Open Graph", "Open Graph ไม่สมบูรณ์",
      "เพิ่ม og:title, og:description, og:image, og:type"⟩] else []) ++
  (if ! c.semanticHTML.found then
    [⟨.medium, "Semantic HTML", "ใช้ <div> มากเกินไป",
      "ใช้ semantic elements: <header>, <main>, <article>, <section>"⟩] else []) ++
  (if warningsInclude c.headingHierarchy ("H1") then
    [⟨.medium, "Headings", "Heading Hierarchy มีปัญหา",
      "ควรมี 1 H1, ตามด้วย H2, H3 ตามลำดับ"⟩] else []) ++
  (if ! c.faqBlocks.found then
    [⟨.low, "FAQ", "ไม่พบ FAQ/QA blocks",
      "เพิ่ม FAQ Schema และรูปแบบคำถาม-คำตอบ"⟩] else []) ++
  (if jsLtOpt c.pageSpeed.score 60 then
    [⟨.high, "Performance", "เว็บไซต์โหลดช้า",
      "ปรับปรุง Core Web Vitals, optimize images"⟩] else []) ++
  (if ! c.authorAuthority.found then
    [⟨.low, "EEAT", "ไม่พบข้อมูลผู้เขียน",
      "เพิ่ม Author meta, Publisher info ตามหลัก EEAT"⟩] else [])

/-- The `summary` object (src/app/api/check/route.ts lines 30-35, 744-747). -/
structure CheckSummary where
  passed : Nat
  warning : Nat
  failed : Nat
  total : Nat
  deriving DecidableEq, Repr

/-- Pass/warn/fail statistics over `Object.values(checks)`
(src/app/api/check/route.ts lines 745-747). -/
def summarize (c : Checks) : CheckSummary :=
  let vals := (checksList c).map (fun e => e.2)
  ⟨(vals.filter (fun v => jsGeOpt v.score 70)).length,
   (vals.filter (fun v => jsGeOpt v.score 50 && jsLtOpt v.score 70)).length,
   (vals.filter (fun v => jsLtOpt v.score 50)).length,
   10⟩

/-- The `CheckResponse` shape (src/app/api/check/route.ts lines 13-36). -/
structure CheckResponse where
  url : String
  overallScore : Nat
  grade : Grade
  checks : Checks
  recommendations : List Recommendation
  summary : CheckSummary
  deriving DecidableEq, Repr

/-- Body of the route's HTTP answer: an error object or the full result. -/
inductive PostBody where
  | err (message : String)
  | success (response : CheckResponse)
  deriving DecidableEq, Repr

/-- HTTP answer of the route: status code and JSON body. -/
structure PostResult where
  status : Nat
  body : PostBody
  deriving DecidableEq, Repr

/-- Embedding of `normalizeUrl` (src/app/api/check/route.ts lines 46-53):
trim, strip one trailing slash, default the scheme to https. -/
def normalizeUrl (url : String) : String :=
  let n := strTrim url
  let n := if strEndsWith n ("/") then strDropRight n 1 else n
  if strStartsWith n ("http://") || strStartsWith n ("https://") then n
  else "https://" ++ n

/-- Invocation of one of the ten checks, recording for the sitemap check the
`robotsContent` argument it was given. -/
inductive Ev where
  | schemaRun
  | robotsRun
  | llmsRun
  | sitemapRun (robotsContent : Option String)
  | ogRun
  | semanticRun
  | headingRun
  | faqRun
  | speedRun
  | authorRun
  deriving DecidableEq, Repr

/-- Message of the outer catch (src/app/api/check/route.ts line 768). -/
def genericError : String := "เกิดข้อผิดพลาดในการตรวจสอบ กรุณาลองใหม่อีกครั้ง"

/-- Embedding of the `POST` handler (src/app/api/check/route.ts lines
662-772) together with the list of check invocations it performs, in program
order.  The `Promise.all` fan-out of lines 695-717 invokes all ten checks
(the sitemap check with `undefined` robots content); a rejection of any of
them — only the schema check can throw — reaches the outer catch and yields
the 500 answer.  After the join, lines 719-725 re-run the sitemap check with
the robots content when the robots check found truthy content, merging only
its `data` into the sitemap result.  A rejected primary fetch also reaches
the outer catch (500); a non-ok primary response is the 400 answer. -/
def POSTt (env : Env) (url : String) : PostResult × List Ev :=
  if url = "" then ({ status := 400, body := .err "กรุณาระบุ URL" }, [])
  else
    let normalizedUrl := normalizeUrl url
    match env.pageFetch normalizedUrl with
    | none => ({ status := 500, body := .err genericError }, [])
    | some pageResponse =>
      if ! pageResponse.ok then
        ({ status := 400,
           body := .err ("ไม่สามารถเข้าถึงเว็บไซต์ได้ (" ++ toString pageResponse.status ++ ")") }, [])
      else
        let html := pageResponse.text
        let schemaExc := checkSchema env html
        let robotsResult := checkRobotsTxt env normalizedUrl
        let llmsResult := checkLlmsTxt env normalizedUrl
        let sitemapResult0 := checkSitemap env normalizedUrl none
        let ogResult := checkOpenGraph env html
        let semanticResult := checkSemanticHTML html
        let headingResult := checkHeadingHierarchy env html
        let faqResult := checkFAQBlocks env html
        let speedResult := checkPageSpeed env normalizedUrl
        let authorResult := checkAuthorAuthority env html
        let fanout : List Ev := [.schemaRun, .robotsRun, .llmsRun, .sitemapRun none,
          .ogRun, .semanticRun, .headingRun, .faqRun, .speedRun, .authorRun]
        match schemaExc with
        | .error _ => ({ status := 500, body := .err genericError }, fanout)
        | .ok schemaResult =>
          let contentVal : Option String :=
            match lookupData robotsResult.data ("content") with
            | some (.s c) => some c
            | _ => none
          let recheck : Bool := robotsResult.found &&
            (match contentVal with
             | some c => decide (c ≠ "")
             | none => false)
          let sitemapResult :=
            if recheck then
              let updatedSitemap := checkSitemap env normalizedUrl contentVal
              if updatedSitemap.found then
                { sitemapResult0 with
                    data := spreadMerge sitemapResult0.data updatedSitemap.data }
              else sitemapResult0
            else sitemapResult0
          let extra : List Ev := if recheck then [.sitemapRun contentVal] else []
          let checks : Checks := ⟨schemaResult, robotsResult, llmsResult, sitemapResult,
            ogResult, semanticResult, headingResult, faqResult, speedResult, authorResult⟩
          let overallScore := calculateOverallScore checks
          let grade := getGrade overallScore
          let recommendations := generateRecommendations checks
          let summary := summarize checks
          ({ status := 200,
             body := .success ⟨normalizedUrl, overallScore, grade, checks, recommendations, summary⟩ },
           fanout ++ extra)

/-- The HTTP answer of the route, without the invocation trace. -/
def POST (env : Env) (url : String) : PostResult := (POSTt env url).1

end Route

/-!
Concrete inputs and helper definitions used by claim witnesses and
counterexamples, and derived forms used to state the rate-limiter claims.
-/

namespace Claim

open Security RateLimit Route

/-- Concrete resolver for the C4 witness: one resolving name, all others
fail. -/
def dnsEx : Str → Option Str := fun h =>
  if h = "example.com".toList then some ("93.184.216.34".toList) else none

/-- Server answering every request with a redirect to a loopback address,
for the C5 witness. -/
def srvC5 : UrlInput → Option SResponse := fun _ => some ⟨302, some "http://127.0.0.1/"⟩

/-- Resolver for the C5 witness, sending the Location to the loopback
host. -/
def resC5 : String → UrlInput → Option UrlInput :=
  fun _ _ => some ⟨"http:".toList, "127.0.0.1".toList⟩

/-- Server for the C6 witness: the original host redirects to a second
public host, which redirects again. -/
def srvC6 : UrlInput → Option SResponse := fun u =>
  if u.host = "example.com".toList then some ⟨302, some "https://next.example.com/"⟩
  else some ⟨302, some "https://third.example.com/"⟩

/-- Resolver for the C6 witness, sending the Location to the second public
host. -/
def resC6 : String → UrlInput → Option UrlInput :=
  fun _ _ => some ⟨"https:".toList, "next.example.com".toList⟩

/-- Expected outcome of a `check` call hitting a live single-key record with
count `c` and reset time `R` at time `t`. -/
def expectedOut (c R t : Nat) : RLOutcome :=
  if c + 1 > RATE_LIMIT then
    ⟨false, some ((R - t + 999) / 1000), 0⟩
  else ⟨true, none, RATE_LIMIT - (c + 1)⟩

/-- Expected outcomes of a run of in-window `check` calls starting from
count `c`. -/
def expectedOuts (c R : Nat) : List Nat → List RLOutcome
  | [] => []
  | t :: ts => expectedOut c R t :: expectedOuts (c + 1) R ts

/-- A rate-limiter table filled to the hard cap with one repeated key. -/
def bigState : RateLimiter :=
  ⟨List.replicate MAX_ENTRIES ("a", ⟨1, 10⟩), 0⟩

/-- The private and reserved ranges the claims list: 10/8, 172.16/12,
192.168/16, 127/8, 169.254/16, 0/8, 100.64/10, 192.0.0/24, 192.88.99/24,
198.18/15 and 224/4, as a predicate on the first three octets. -/
def inRejectedRanges (a b c : Nat) : Prop :=
  a = 10 ∨ (a = 172 ∧ 16 ≤ b ∧ b ≤ 31) ∨ (a = 192 ∧ b = 168) ∨ a = 127 ∨
  (a = 169 ∧ b = 254) ∨ a = 0 ∨ (a = 100 ∧ 64 ≤ b ∧ b ≤ 127) ∨
  (a = 192 ∧ b = 0 ∧ c = 0) ∨ (a = 192 ∧ b = 88 ∧ c = 99) ∨
  (a = 198 ∧ (b = 18 ∨ b = 19)) ∨ (224 ≤ a ∧ a ≤ 239)

/-- Environment for the C1 counterexample: the primary page fetch succeeds
and one JSON-LD block parses to the literal `null`, so the schema check's
`@type` member access throws; every other oracle degrades. -/
def envC1 : Route.Env where
  pageFetch := fun _ => some ⟨true, 200, "<html></html>"⟩
  robotsFetch := fun _ => none
  llmsFetch := fun _ => none
  sitemapFetch := fun _ => none
  speedLoad := fun _ => none
  jsonLd := fun _ => [some .null]
  regexTest := fun _ _ => false
  regexCount := fun _ _ => 0
  sitemapDirective := fun _ => none

/-- Environment for the C1 amended witness: the primary page fetch succeeds,
no JSON-LD blocks are present (the schema check does not throw), and every
auxiliary fetch fails. -/
def envC1ok : Route.Env where
  pageFetch := fun _ => some ⟨true, 200, "<html></html>"⟩
  robotsFetch := fun _ => none
  llmsFetch := fun _ => none
  sitemapFetch := fun _ => none
  speedLoad := fun _ => none
  jsonLd := fun _ => []
  regexTest := fun _ _ => false
  regexCount := fun _ _ => 0
  sitemapDirective := fun _ => none

/-- The robots.txt content of the C9 failing input: it names an alternate
sitemap location. -/
def rcC9 : String := "Sitemap: https://alt.example.com/sm.xml"

/-- The alternate sitemap location of the C9 failing input. -/
def altC9 : String := "https://alt.example.com/sm.xml"

/-- The request URL of the C9 failing input. -/
def urlC9 : String := "https://example.com"

/-- Environment for the C9 failing input: robots.txt exists and points to an
alternate sitemap location; the default `/sitemap.xml` location does not
resolve; the alternate location serves a valid sitemap. -/
def envC9 : Route.Env where
  pageFetch := fun _ => some ⟨true, 200, ""⟩
  robotsFetch := fun u =>
    if u = "https://example.com/robots.txt" then some ⟨true, 200, rcC9⟩ else none
  llmsFetch := fun _ => none
  sitemapFetch := fun u =>
    if u = altC9 then some ⟨true, 200, "<urlset><url><loc>a</loc></url></urlset>"⟩
    else none
  speedLoad := fun _ => none
  jsonLd := fun _ => []
  regexTest := fun _ _ => false
  regexCount := fun _ _ => 0
  sitemapDirective := fun rc => if rc = rcC9 then some altC9 else none

/-- The `checks` object of a successful route answer, `none` on an error
answer. -/
def respChecks : Route.PostBody → Option Route.Checks
  | .err _ => none
  | .success r => some r.checks

end Claim

/-!
Claim theorems.
-/

section Claims

open Security RateLimit Route

/-- C4: `validateDnsResolution` returns false whenever the DNS lookup fails
for any reason (every failure mode reaches the catch branch) — never falling
back to assume-safe — and on success it returns true exactly when the
resolved address is not in a private/reserved range; and `isSafeUrlWithDns`
equals the conjunction of `isSafeUrl` and `validateDnsResolution` applied to
the URL's hostname. -/
theorem dns_guard_fail_closed (dns : Str → Option Str) (hostname address : Str)
    (u : UrlInput) (p : ParsedUrl) (hp : parseUrl u = some p) :
    (dns hostname = none → validateDnsResolution dns hostname = false) ∧
    (dns hostname = some address →
      (validateDnsResolution dns hostname = true ↔ isPrivateIPv4 address = false)) ∧
    isSafeUrlWithDns dns u = (isSafeUrl u && validateDnsResolution dns p.hostname) := by
  refine ⟨fun h => by simp [validateDnsResolution, h], fun h => ?_, ?_⟩
  · simp [validateDnsResolution, h]
  · unfold isSafeUrlWithDns
    cases hs : isSafeUrl u with
    | false => simp
    | true => simp [hp]

/-- Witness for C4: the failing lookup yields false, the succeeding lookup
against a public address yields true, and the combined check agrees with the
conjunction, all at concrete inputs. -/
theorem dns_guard_fail_closed_witness :
    validateDnsResolution Claim.dnsEx ("nxdomain.example".toList) = false ∧
    (validateDnsResolution Claim.dnsEx ("example.com".toList) = true ↔
      isPrivateIPv4 ("93.184.216.34".toList) = false) ∧
    isSafeUrlWithDns Claim.dnsEx ⟨"https:".toList, "example.com".toList⟩ =
      (isSafeUrl ⟨"https:".toList, "example.com".toList⟩ &&
        validateDnsResolution Claim.dnsEx ("example.com".toList)) :=
  ⟨(dns_guard_fail_closed Claim.dnsEx ("nxdomain.example".toList) ("93.184.216.34".toList)
      ⟨"https:".toList, "example.com".toList⟩
      ⟨"https:".toList, "example.com".toList⟩ (by decide)).1 (by decide),
   (dns_guard_fail_closed Claim.dnsEx ("example.com".toList) ("93.184.216.34".toList)
      ⟨"https:".toList, "example.com".toList⟩
      ⟨"https:".toList, "example.com".toList⟩ (by decide)).2.1 (by decide),
   (dns_guard_fail_closed Claim.dnsEx ("example.com".toList) ("93.184.216.34".toList)
      ⟨"https:".toList, "example.com".toList⟩
      ⟨"https:".toList, "example.com".toList⟩ (by decide)).2.2⟩

/-- C10: `getInfo` is read-only — the state after the call is the state
before it (so the table contents, the table size and the `lastCleanup`
timestamp are untouched and no record's count is incremented) — and it
reports a live record's stored count, reset time and remaining quota, and
the defaults for an absent key. -/
theorem getInfo_readonly (s : RateLimiter) (ip : String) (now : Nat) :
    (getInfo s ip now).2 = s ∧
    (mapGet s.map ip = none →
      (getInfo s ip now).1 = ⟨0, now + RATE_WINDOW, RATE_LIMIT⟩) ∧
    (∀ r : RateLimitRecord, mapGet s.map ip = some r → ¬ now > r.resetTime →
      (getInfo s ip now).1 = ⟨r.count, r.resetTime, RATE_LIMIT - r.count⟩) := by
  refine ⟨?_, ?_, ?_⟩
  · unfold getInfo
    cases h : mapGet s.map ip with
    | none => simp
    | some r => by_cases hl : now > r.resetTime <;> simp [hl]
  · intro h
    unfold getInfo
    simp [h]
  · intro r h hl
    unfold getInfo
    simp [h, hl]

/-- Witness for C10 at a one-record state with a live record. -/
theorem getInfo_readonly_witness :
    (getInfo ⟨[("a", ⟨3, 1000⟩)], 0⟩ "a" 500).2 = ⟨[("a", ⟨3, 1000⟩)], 0⟩ ∧
    (getInfo ⟨[("a", ⟨3, 1000⟩)], 0⟩ "a" 500).1 = ⟨3, 1000, RATE_LIMIT - 3⟩ :=
  ⟨(getInfo_readonly ⟨[("a", ⟨3, 1000⟩)], 0⟩ "a" 500).1,
   (getInfo_readonly ⟨[("a", ⟨3, 1000⟩)], 0⟩ "a" 500).2.2 ⟨3, 1000⟩ (by decide) (by decide)⟩

/-- C5: when the first response is a 3xx redirect whose Location resolves to
a target failing the combined validator-plus-DNS-guard check, `safeFetch`
fails with the Blocked error, and the only request issued is the initial
one — no request ever goes to the redirect target. -/
theorem safeFetch_blocks_unsafe_redirect
    (server : UrlInput → Option SResponse) (dns : Str → Option Str)
    (resolve : String → UrlInput → Option UrlInput) (url target : UrlInput)
    (resp : SResponse) (loc : String)
    (hs : server url = some resp) (h3 : 300 ≤ resp.status) (h4 : resp.status < 400)
    (hl : resp.location = some loc) (hr : resolve loc url = some target)
    (hblocked : isSafeUrlWithDns dns target = false) :
    safeFetch server dns resolve url = (Except.error SFError.blocked, [url]) := by
  have hcond : ¬ (resp.status < 300 ∨ resp.status ≥ 400) := by omega
  simp [safeFetch, hs, hl, hr, hblocked, hcond]

/-- Witness for C5: a 302 to an internal address is Blocked after one
request. -/
theorem safeFetch_blocks_unsafe_redirect_witness :
    safeFetch Claim.srvC5 (fun _ => none) Claim.resC5 ⟨"https:".toList, "example.com".toList⟩ =
      (Except.error SFError.blocked, [⟨"https:".toList, "example.com".toList⟩]) :=
  safeFetch_blocks_unsafe_redirect Claim.srvC5 (fun _ => none) Claim.resC5
    ⟨"https:".toList, "example.com".toList⟩ ⟨"http:".toList, "127.0.0.1".toList⟩
    ⟨302, some "http://127.0.0.1/"⟩ "http://127.0.0.1/"
    rfl (by decide) (by decide) rfl rfl (by decide)

/-- C6: against a chained redirect through a safe target, exactly one more
request is issued with redirects treated as hard errors, so the second
redirect makes `safeFetch` fail hard after the first hop; and in general a
call issues at most two outbound requests. -/
theorem safeFetch_single_hop
    (server : UrlInput → Option SResponse) (dns : Str → Option Str)
    (resolve : String → UrlInput → Option UrlInput) (url target : UrlInput)
    (r1 r2 : SResponse) (loc : String)
    (hs : server url = some r1) (h3 : 300 ≤ r1.status) (h4 : r1.status < 400)
    (hl : r1.location = some loc) (hr : resolve loc url = some target)
    (hsafe : isSafeUrlWithDns dns target = true)
    (hs2 : server target = some r2) (hred : redirectStatus r2.status = true) :
    safeFetch server dns resolve url = (Except.error SFError.redirectRefused, [url, target]) ∧
    ∀ (server' : UrlInput → Option SResponse) (dns' : Str → Option Str)
      (resolve' : String → UrlInput → Option UrlInput) (url' : UrlInput),
      (safeFetch server' dns' resolve' url').2.length ≤ 2 := by
  constructor
  · have hcond : ¬ (r1.status < 300 ∨ r1.status ≥ 400) := by omega
    simp [safeFetch, hs, hl, hr, hsafe, hs2, hred, hcond]
  · intro server' dns' resolve' url'
    unfold safeFetch
    (repeat' split) <;> simp

/-- Witness for C6: two chained public redirects end in a hard error after
exactly two requests. -/
theorem safeFetch_single_hop_witness :
    safeFetch Claim.srvC6 (fun _ => some ("93.184.216.34".toList)) Claim.resC6
        ⟨"https:".toList, "example.com".toList⟩ =
      (Except.error SFError.redirectRefused,
        [⟨"https:".toList, "example.com".toList⟩,
         ⟨"https:".toList, "next.example.com".toList⟩]) ∧
    (safeFetch Claim.srvC6 (fun _ => some ("93.184.216.34".toList)) Claim.resC6
        ⟨"https:".toList, "example.com".toList⟩).2.length ≤ 2 :=
  ⟨(safeFetch_single_hop Claim.srvC6 (fun _ => some ("93.184.216.34".toList)) Claim.resC6
      ⟨"https:".toList, "example.com".toList⟩ ⟨"https:".toList, "next.example.com".toList⟩
      ⟨302, some "https://next.example.com/"⟩ ⟨302, some "https://third.example.com/"⟩
      "https://next.example.com/"
      (by decide) (by decide) (by decide) (by decide) rfl (by decide) (by decide) (by decide)).1,
   (safeFetch_single_hop Claim.srvC6 (fun _ => some ("93.184.216.34".toList)) Claim.resC6
      ⟨"https:".toList, "example.com".toList⟩ ⟨"https:".toList, "next.example.com".toList⟩
      ⟨302, some "https://next.example.com/"⟩ ⟨302, some "https://third.example.com/"⟩
      "https://next.example.com/"
      (by decide) (by decide) (by decide) (by decide) rfl (by decide) (by decide) (by decide)).2
     Claim.srvC6 (fun _ => some ("93.184.216.34".toList)) Claim.resC6
     ⟨"https:".toList, "example.com".toList⟩⟩

end Claims

/-- Helper: `maybeCleanup` is the identity before the cleanup interval has
elapsed. -/
theorem maybeCleanup_noop (s : RateLimit.RateLimiter) (now : Nat)
    (h : now - s.lastCleanup < RateLimit.CLEANUP_INTERVAL) :
    RateLimit.maybeCleanup s now = s := by
  unfold RateLimit.maybeCleanup
  rw [if_pos h]

/-- Helper: the lazy cleanup never grows the table. -/
theorem maybeCleanup_length_le (s : RateLimit.RateLimiter) (now : Nat) :
    (RateLimit.maybeCleanup s now).map.length ≤ s.map.length := by
  unfold RateLimit.maybeCleanup
  split
  · exact Nat.le_refl _
  · exact List.length_filter_le _ _

/-- Helper: updating an existing key keeps the table length. -/
theorem mapSet_length_of_get (m : List (String × RateLimit.RateLimitRecord))
    (k : String) (v v' : RateLimit.RateLimitRecord) (h : RateLimit.mapGet m k = some v) :
    (RateLimit.mapSet m k v').length = m.length := by
  induction m with
  | nil => simp [RateLimit.mapGet] at h
  | cons e t ih =>
    unfold RateLimit.mapGet at h
    unfold RateLimit.mapSet
    by_cases he : e.1 = k
    · simp [he]
    · simp only [he, if_false] at h ⊢
      simp [ih h]

/-- Helper: inserting a fresh key grows the table by one. -/
theorem mapSet_length_of_none (m : List (String × RateLimit.RateLimitRecord))
    (k : String) (v' : RateLimit.RateLimitRecord) (h : RateLimit.mapGet m k = none) :
    (RateLimit.mapSet m k v').length = m.length + 1 := by
  induction m with
  | nil => simp [RateLimit.mapSet]
  | cons e t ih =>
    unfold RateLimit.mapGet at h
    unfold RateLimit.mapSet
    by_cases he : e.1 = k
    · simp [he] at h
    · simp only [he, if_false] at h ⊢
      simp [ih h]

/-- Helper: `getInfo` returns the state unchanged. -/
theorem getInfo_state (s : RateLimit.RateLimiter) (ip : String) (now : Nat) :
    (RateLimit.getInfo s ip now).2 = s := by
  unfold RateLimit.getInfo
  cases h : RateLimit.mapGet s.map ip with
  | none => simp
  | some r => by_cases hl : now > r.resetTime <;> simp [hl]

/-- Helper: one `check` call preserves the hard cap. -/
theorem check_preserves_cap (s : RateLimit.RateLimiter) (ip : String) (now : Nat)
    (h : s.map.length ≤ RateLimit.MAX_ENTRIES) :
    ((RateLimit.check s ip now).2).map.length ≤ RateLimit.MAX_ENTRIES := by
  have h1 : (RateLimit.maybeCleanup s now).map.length ≤ RateLimit.MAX_ENTRIES :=
    Nat.le_trans (maybeCleanup_length_le s now) h
  unfold RateLimit.check
  cases hg : RateLimit.mapGet (RateLimit.maybeCleanup s now).map ip with
  | none =>
    by_cases hc : (RateLimit.maybeCleanup s now).map.length ≥ RateLimit.MAX_ENTRIES
    · simp only [hg, hc, if_pos]
      exact h1
    · simp only [hg, hc, if_false]
      have := mapSet_length_of_none (RateLimit.maybeCleanup s now).map ip
        ⟨1, now + RateLimit.RATE_WINDOW⟩ hg
      simp only [this]
      omega
  | some r =>
    by_cases ht : now > r.resetTime
    · simp only [hg, ht, if_pos]
      have := mapSet_length_of_get (RateLimit.maybeCleanup s now).map ip r
        ⟨1, now + RateLimit.RATE_WINDOW⟩ hg
      simp only [this]
      exact h1
    · simp only [hg, ht, if_false]
      have := mapSet_length_of_get (RateLimit.maybeCleanup s now).map ip r
        ⟨r.count + 1, r.resetTime⟩ hg
      split
      · simp only [this]
        exact h1
      · simp only [this]
        exact h1

/-- Helper: a table of one repeated key has no record for another key. -/
theorem mapGet_replicate_ne (n : Nat) (k k' : String) (v : RateLimit.RateLimitRecord)
    (h : k ≠ k') : RateLimit.mapGet (List.replicate n (k, v)) k' = none := by
  induction n with
  | zero => rfl
  | succ m ih => simp [List.replicate, RateLimit.mapGet, h, ih]

/-- C8: the rate limiter's table size never exceeds `MAX_ENTRIES`: every
operation preserves the bound, every run from the empty table satisfies it,
and a `check` call that finds no record for the key while the table (after
the lazy cleanup step) is at the cap is denied immediately and inserts
nothing. -/
theorem table_size_bounded :
    (∀ (s : RateLimit.RateLimiter) (op : RateLimit.Op),
        s.map.length ≤ RateLimit.MAX_ENTRIES →
        (RateLimit.applyOp s op).map.length ≤ RateLimit.MAX_ENTRIES) ∧
    (∀ (t0 : Nat) (ops : List RateLimit.Op),
        (RateLimit.runOps (RateLimit.initLimiter t0) ops).map.length ≤ RateLimit.MAX_ENTRIES) ∧
    (∀ (s : RateLimit.RateLimiter) (ip : String) (now : Nat),
        RateLimit.mapGet (RateLimit.maybeCleanup s now).map ip = none →
        (RateLimit.maybeCleanup s now).map.length ≥ RateLimit.MAX_ENTRIES →
        RateLimit.check s ip now = (⟨false, some 60, 0⟩, RateLimit.maybeCleanup s now)) := by
  have hop : ∀ (s : RateLimit.RateLimiter) (op : RateLimit.Op),
      s.map.length ≤ RateLimit.MAX_ENTRIES →
      (RateLimit.applyOp s op).map.length ≤ RateLimit.MAX_ENTRIES := by
    intro s op h
    cases op with
    | check ip now => exact check_preserves_cap s ip now h
    | getInfo ip now => rw [RateLimit.applyOp, getInfo_state]; exact h
    | cleanup now =>
      simp only [RateLimit.applyOp, RateLimit.cleanup]
      exact Nat.le_trans (List.length_filter_le _ _) h
  refine ⟨hop, ?_, ?_⟩
  · intro t0 ops
    have : ∀ (ops : List RateLimit.Op) (s : RateLimit.RateLimiter),
        s.map.length ≤ RateLimit.MAX_ENTRIES →
        (RateLimit.runOps s ops).map.length ≤ RateLimit.MAX_ENTRIES := by
      intro ops
      induction ops with
      | nil => intro s h; exact h
      | cons op t ih => intro s h; exact ih _ (hop s op h)
    exact this ops _ (by simp [RateLimit.initLimiter])
  · intro s ip now hg hc
    unfold RateLimit.check
    simp only [hg, hc, if_pos]

/-- Witness for C8: at a table filled to the cap, a fresh key is denied with
the table untouched, and a short run from the empty table stays within the
cap. -/
theorem table_size_bounded_witness :
    RateLimit.check Claim.bigState "b" 0 = (⟨false, some 60, 0⟩, RateLimit.maybeCleanup Claim.bigState 0) ∧
    (RateLimit.runOps (RateLimit.initLimiter 0) [RateLimit.Op.check "x" 5]).map.length ≤
      RateLimit.MAX_ENTRIES := by
  have hnoop : RateLimit.maybeCleanup Claim.bigState 0 = Claim.bigState :=
    maybeCleanup_noop _ _ (by simp [Claim.bigState, RateLimit.CLEANUP_INTERVAL])
  refine ⟨table_size_bounded.2.2 Claim.bigState "b" 0 ?_ ?_, table_size_bounded.2.1 0 _⟩
  · rw [hnoop]
    exact mapGet_replicate_ne _ "a" "b" _ (by decide)
  · rw [hnoop]
    simp [Claim.bigState]

/-- Helper: a `check` call against a single live record for the key
increments the count and answers according to `expectedOut`, whether or not
the lazy cleanup sweep fires. -/
theorem check_single_live (ip : String) (c R lc t : Nat) (h : t ≤ R) :
    RateLimit.check ⟨[(ip, ⟨c, R⟩)], lc⟩ ip t =
      (Claim.expectedOut c R t,
       ⟨[(ip, ⟨c + 1, R⟩)], if t - lc < RateLimit.CLEANUP_INTERVAL then lc else t⟩) := by
  have hnl : ¬ t > R := Nat.not_lt.2 h
  unfold RateLimit.check RateLimit.maybeCleanup
  by_cases hcl : t - lc < RateLimit.CLEANUP_INTERVAL <;>
    simp [hcl, RateLimit.mapGet, RateLimit.mapSet, hnl, Claim.expectedOut] <;>
    split <;> simp

/-- Helper: a run of in-window `check` calls against a single live record
produces the `expectedOuts` answers and ends with the count advanced by the
number of calls. -/
theorem checkSeq_single_live (ip : String) (R : Nat) :
    ∀ (ts : List Nat) (c lc : Nat), (∀ t ∈ ts, t ≤ R) →
    ∃ lc', RateLimit.checkSeq ⟨[(ip, ⟨c, R⟩)], lc⟩ ip ts =
      (Claim.expectedOuts c R ts, ⟨[(ip, ⟨c + ts.length, R⟩)], lc'⟩) := by
  intro ts
  induction ts with
  | nil =>
    intro c lc _
    exact ⟨lc, by simp [RateLimit.checkSeq, Claim.expectedOuts]⟩
  | cons t ts ih =>
    intro c lc h
    have ht : t ≤ R := h t (by simp)
    have hrest : ∀ x ∈ ts, x ≤ R := fun x hx => h x (by simp [hx])
    obtain ⟨lc', he⟩ :=
      ih (c + 1) (if t - lc < RateLimit.CLEANUP_INTERVAL then lc else t) hrest
    refine ⟨lc', ?_⟩
    unfold RateLimit.checkSeq
    rw [check_single_live ip c R lc t ht]
    simp only [he, Claim.expectedOuts]
    have : c + (t :: ts).length = c + 1 + ts.length := by simp; omega
    simp [this]
    omega

/-- Helper: the first `check` call from a fresh limiter opens a window with
count one and is allowed. -/
theorem check_init (ip : String) (t0 t : Nat) :
    RateLimit.check (RateLimit.initLimiter t0) ip t =
      (⟨true, none, RateLimit.RATE_LIMIT - 1⟩,
       ⟨[(ip, ⟨1, t + RateLimit.RATE_WINDOW⟩)],
        if t - t0 < RateLimit.CLEANUP_INTERVAL then t0 else t⟩) := by
  unfold RateLimit.check RateLimit.initLimiter
  by_cases hcl : t - t0 < RateLimit.CLEANUP_INTERVAL <;>
    simp [RateLimit.maybeCleanup, hcl, RateLimit.mapGet, RateLimit.mapSet,
      RateLimit.MAX_ENTRIES]

/-- Helper: the entries of `expectedOuts` are the `expectedOut` values of
the corresponding call times at the advanced counts. -/
theorem expectedOuts_get (R : Nat) :
    ∀ (ts : List Nat) (c i : Nat) (o : RateLimit.RLOutcome),
      (Claim.expectedOuts c R ts).get? i = some o →
      ∃ t, ts.get? i = some t ∧ o = Claim.expectedOut (c + i) R t := by
  intro ts
  induction ts with
  | nil => intro c i o h; simp [Claim.expectedOuts] at h
  | cons t ts ih =>
    intro c i o h
    cases i with
    | zero =>
      simp only [Claim.expectedOuts, List.get?] at h
      exact ⟨t, rfl, by cases h; rfl⟩
    | succ j =>
      simp only [Claim.expectedOuts, List.get?] at h
      obtain ⟨t', ht', ho⟩ := ih (c + 1) j o h
      refine ⟨t', ht', ?_⟩
      rw [ho]
      congr 1
      omega

/-- C7: from an empty limiter, with all calls for a key inside the first
call's 60-second window, each of the first ten calls is allowed, the
eleventh and every later call is denied with a positive `retryAfter`, the
first call after the window expires is allowed again, and — in general — any
call that pushes a live window count above the limit is denied. -/
theorem fixed_window_rate_limiting (ip : String) (t0 t1 : Nat) (ts : List Nat)
    (hts : ∀ t ∈ ts, t < t1 + RateLimit.RATE_WINDOW) :
    (∀ i o, ((RateLimit.checkSeq (RateLimit.initLimiter t0) ip (t1 :: ts)).1).get? i = some o →
        i < RateLimit.RATE_LIMIT → o.allowed = true) ∧
    (∀ i o, ((RateLimit.checkSeq (RateLimit.initLimiter t0) ip (t1 :: ts)).1).get? i = some o →
        RateLimit.RATE_LIMIT ≤ i →
        o.allowed = false ∧ ∃ ra, o.retryAfter = some ra ∧ 0 < ra) ∧
    (∀ t', t1 + RateLimit.RATE_WINDOW < t' →
        ((RateLimit.check (RateLimit.checkSeq (RateLimit.initLimiter t0) ip (t1 :: ts)).2 ip t').1).allowed = true) ∧
    (∀ (s : RateLimit.RateLimiter) (r : RateLimit.RateLimitRecord) (now : Nat),
        RateLimit.mapGet (RateLimit.maybeCleanup s now).map ip = some r →
        ¬ now > r.resetTime → RateLimit.RATE_LIMIT < r.count + 1 →
        ((RateLimit.check s ip now).1).allowed = false) := by
  have hW : t1 < t1 + RateLimit.RATE_WINDOW := by
    have : RateLimit.RATE_WINDOW = 60000 := rfl
    omega
  have hle : ∀ t ∈ ts, t ≤ t1 + RateLimit.RATE_WINDOW :=
    fun t htm => Nat.le_of_lt (hts t htm)
  obtain ⟨lc', hrun⟩ := checkSeq_single_live ip (t1 + RateLimit.RATE_WINDOW) ts 1
    (if t1 - t0 < RateLimit.CLEANUP_INTERVAL then t0 else t1) hle
  have hfull : RateLimit.checkSeq (RateLimit.initLimiter t0) ip (t1 :: ts) =
      (Claim.expectedOuts 0 (t1 + RateLimit.RATE_WINDOW) (t1 :: ts),
       ⟨[(ip, ⟨1 + ts.length, t1 + RateLimit.RATE_WINDOW⟩)], lc'⟩) := by
    unfold RateLimit.checkSeq
    rw [check_init]
    simp only [hrun, Claim.expectedOuts]
    have h0 : Claim.expectedOut 0 (t1 + RateLimit.RATE_WINDOW) t1 =
        ⟨true, none, RateLimit.RATE_LIMIT - 1⟩ := by
      unfold Claim.expectedOut
      rw [if_neg (by decide)]
    rw [h0]
  have hmem : ∀ t, t ∈ t1 :: ts → t < t1 + RateLimit.RATE_WINDOW := by
    intro t htm
    rcases List.mem_cons.1 htm with h | h
    · rw [h]; exact hW
    · exact hts t h
  refine ⟨?_, ?_, ?_, ?_⟩
  · intro i o ho hi
    rw [hfull] at ho
    obtain ⟨t, _, rfl⟩ := expectedOuts_get _ (t1 :: ts) 0 i o ho
    unfold Claim.expectedOut
    rw [if_neg (by
      have : RateLimit.RATE_LIMIT = 10 := rfl
      omega)]
  · intro i o ho hi
    rw [hfull] at ho
    obtain ⟨t, hti, rfl⟩ := expectedOuts_get _ (t1 :: ts) 0 i o ho
    have htlt : t < t1 + RateLimit.RATE_WINDOW := hmem t (List.get?_mem hti)
    unfold Claim.expectedOut
    rw [if_pos (by
      have : RateLimit.RATE_LIMIT = 10 := rfl
      omega)]
    exact ⟨rfl, (t1 + RateLimit.RATE_WINDOW - t + 999) / 1000, rfl, by omega⟩
  · intro t' ht'
    rw [hfull]
    have hgt : t' > t1 + RateLimit.RATE_WINDOW := ht'
    unfold RateLimit.check RateLimit.maybeCleanup
    by_cases hcl : t' - lc' < RateLimit.CLEANUP_INTERVAL <;>
      simp [hcl, RateLimit.mapGet, RateLimit.mapSet, hgt, Nat.not_lt.2 (Nat.le_of_lt hgt),
        RateLimit.MAX_ENTRIES]
  · intro s r now hg hlive hcount
    simp only [RateLimit.check, hg, hlive, if_false]
    rw [if_pos hcount]

/-- Witness for C7: eleven calls at time zero from a fresh limiter — ten
allowed, the eleventh denied with retryAfter 60 — then an allowed call after
the window, and a concrete over-limit live record being denied. -/
theorem fixed_window_rate_limiting_witness :
    RateLimit.RLOutcome.allowed ⟨true, none, 9⟩ = true ∧
    (RateLimit.RLOutcome.allowed ⟨false, some 60, 0⟩ = false ∧
      ∃ ra, RateLimit.RLOutcome.retryAfter ⟨false, some 60, 0⟩ = some ra ∧ 0 < ra) ∧
    ((RateLimit.check
        (RateLimit.checkSeq (RateLimit.initLimiter 0) "k" [0, 0, 0, 0, 0, 0, 0, 0, 0, 0, 0]).2
        "k" 60001).1).allowed = true ∧
    ((RateLimit.check ⟨[("k", ⟨10, 100⟩)], 0⟩ "k" 50).1).allowed = false := by
  have h := fixed_window_rate_limiting "k" 0 0 [0, 0, 0, 0, 0, 0, 0, 0, 0, 0]
    (by intro t htm; simp at htm; simp [htm]; decide)
  refine ⟨?_, ?_, ?_, ?_⟩
  · exact h.1 0 ⟨true, none, 9⟩ (by decide) (by decide)
  · exact h.2.1 10 ⟨false, some 60, 0⟩ (by decide) (by decide)
  · exact h.2.2.1 60001 (by decide)
  · exact h.2.2.2 ⟨[("k", ⟨10, 100⟩)], 0⟩ ⟨10, 100⟩ 50 (by decide) (by decide) (by decide)

/-- Helper: the decimal printer is independent of the fuel once the fuel
exceeds the argument. -/
theorem decDigitsAux_fuel (n : Nat) : ∀ (f g : Nat), n < f → n < g →
    Security.decDigitsAux f n = Security.decDigitsAux g n := by
  induction n using Nat.strong_induction_on with
  | _ n ih =>
    intro f g hf hg
    cases f with
    | zero => omega
    | succ f =>
      cases g with
      | zero => omega
      | succ g =>
        simp only [Security.decDigitsAux]
        by_cases h : n < 10
        · simp [h]
        · rw [if_neg h, if_neg h]
          have hd : n / 10 < n := Nat.div_lt_self (by omega) (by omega)
          rw [ih (n / 10) hd f (n / 10 + 1) (by omega) (by omega),
              ih (n / 10) hd g (n / 10 + 1) (by omega) (by omega)]

/-- Helper: recursion equation of the decimal printer. -/
theorem decDigits_eq (n : Nat) : Security.decDigits n =
    if n < 10 then [Security.digitChar n]
    else Security.decDigits (n / 10) ++ [Security.digitChar (n % 10)] := by
  by_cases h : n < 10
  · rw [if_pos h]
    unfold Security.decDigits
    simp only [Security.decDigitsAux]
    rw [if_pos h]
  · rw [if_neg h]
    show Security.decDigitsAux (n + 1) n =
      Security.decDigitsAux (n / 10 + 1) (n / 10) ++ [Security.digitChar (n % 10)]
    conv_lhs => rw [Security.decDigitsAux]
    rw [if_neg h]
    have hd : n / 10 < n := Nat.div_lt_self (by omega) (by omega)
    rw [decDigitsAux_fuel (n / 10) n (n / 10 + 1) hd (Nat.lt_succ_self _)]

/-- Helper: the decimal printer never returns the empty string. -/
theorem decDigits_ne_nil (n : Nat) : Security.decDigits n ≠ [] := by
  rw [decDigits_eq]
  split <;> simp

/-- Helper: every digit character is a digit. -/
theorem digitChar_isDigit (k : Nat) : Security.isDigitChar (Security.digitChar k) = true := by
  unfold Security.digitChar
  split <;> decide

/-- Helper: the decimal printer produces only digit characters. -/
theorem decDigits_all_digit (n : Nat) :
    ∀ c ∈ Security.decDigits n, Security.isDigitChar c = true := by
  induction n using Nat.strong_induction_on with
  | _ n ih =>
    rw [decDigits_eq]
    by_cases h : n < 10
    · simp only [h, if_true]
      intro c hc
      simp at hc
      rw [hc]
      exact digitChar_isDigit n
    · simp only [h, if_false]
      intro c hc
      rcases List.mem_append.1 hc with h1 | h1
      · exact ih (n / 10) (Nat.div_lt_self (by omega) (by omega)) c h1
      · simp at h1
        rw [h1]
        exact digitChar_isDigit _

/-- Helper: the dot is not a digit character, so it never occurs in a
decimal print. -/
theorem dot_not_mem_decDigits (n : Nat) : '.' ∉ Security.decDigits n := by
  intro h
  have := decDigits_all_digit n '.' h
  simp [Security.isDigitChar] at this

/-- Helper: a positive number prints without a leading zero. -/
theorem decDigits_head_ne_zero (n : Nat) (hn : 1 ≤ n) :
    ∀ c, (Security.decDigits n).head? = some c → c ≠ '0' := by
  induction n using Nat.strong_induction_on with
  | _ n ih =>
    intro c hc
    rw [decDigits_eq] at hc
    by_cases h : n < 10
    · rw [if_pos h] at hc
      simp at hc
      subst hc
      interval_cases n <;> decide
    · rw [if_neg h] at hc
      rw [List.head?_append_of_ne_nil _ (decDigits_ne_nil (n / 10))] at hc
      exact ih (n / 10) (Nat.div_lt_self (by omega) (by omega)) (by omega) c hc

/-- Helper: on a digit character, `digitValue` in radix ten returns its
decimal value. -/
theorem digitValue_of_digit (c : Char) (h : Security.isDigitChar c = true) :
    Security.digitValue 10 c = some (c.toNat - 48) := by
  unfold Security.isDigitChar at h
  simp only [decide_eq_true_eq] at h
  unfold Security.digitValue
  rw [if_pos ⟨h.1, h.2, by omega⟩]

/-- Helper: on an all-digit tail, the longest-prefix parser accumulates the
whole decimal fold. -/
theorem go_eq_fold (l : Security.Str) (acc : Nat)
    (h : ∀ c ∈ l, Security.isDigitChar c = true) :
    Security.parseIntPrefix.go 10 l acc =
      l.foldl (fun a c => a * 10 + (c.toNat - 48)) acc := by
  induction l generalizing acc with
  | nil => rfl
  | cons c t ih =>
    unfold Security.parseIntPrefix.go
    rw [digitValue_of_digit c (h c (by simp))]
    simp only [List.foldl_cons]
    exact ih _ (fun x hx => h x (by simp [hx]))

/-- Helper: on an all-digit string, `digitsValue` computes the decimal
fold. -/
theorem digitsValue_eq_fold (l : Security.Str) (acc : Nat)
    (h : ∀ c ∈ l, Security.isDigitChar c = true) :
    Security.digitsValue 10 l (some acc) =
      some (l.foldl (fun a c => a * 10 + (c.toNat - 48)) acc) := by
  induction l generalizing acc with
  | nil => rfl
  | cons c t ih =>
    unfold Security.digitsValue
    rw [digitValue_of_digit c (h c (by simp))]
    simp only [List.foldl_cons]
    exact ih _ (fun x hx => h x (by simp [hx]))

/-- Helper: the code of a digit character. -/
theorem digitChar_toNat (k : Nat) (h : k < 10) :
    (Security.digitChar k).toNat = 48 + k := by
  interval_cases k <;> decide

/-- Helper: folding the decimal digits of `n` from an accumulator scales the
accumulator by the digit count and adds `n`. -/
theorem foldl_decDigits (n : Nat) : ∀ acc : Nat,
    (Security.decDigits n).foldl (fun a c => a * 10 + (c.toNat - 48)) acc =
      acc * 10 ^ (Security.decDigits n).length + n := by
  induction n using Nat.strong_induction_on with
  | _ n ih =>
    intro acc
    rw [decDigits_eq]
    by_cases h : n < 10
    · rw [if_pos h]
      simp [digitChar_toNat n h]
    · rw [if_neg h]
      rw [List.foldl_append]
      have hd : n / 10 < n := Nat.div_lt_self (by omega) (by omega)
      rw [ih (n / 10) hd acc]
      simp only [List.foldl_cons, List.foldl_nil, List.length_append, List.length_cons,
        List.length_nil]
      rw [digitChar_toNat (n % 10) (by omega)]
      have hpow : 10 ^ ((Security.decDigits (n / 10)).length + (0 + 1)) =
          10 ^ (Security.decDigits (n / 10)).length * 10 := by
        rw [Nat.add_comm 0 1]
        exact pow_succ 10 _
      rw [hpow]
      have hdm : n / 10 * 10 + n % 10 = n := by omega
      have : (acc * 10 ^ (Security.decDigits (n / 10)).length + n / 10) * 10 + (48 + n % 10 - 48) =
          acc * (10 ^ (Security.decDigits (n / 10)).length * 10) + (n / 10 * 10 + n % 10) := by
        have h48 : 48 + n % 10 - 48 = n % 10 := by omega
        rw [h48]
        ring
      rw [this, hdm]

/-- Helper: `parseInt(s, 10)` recovers `n` from its decimal print. -/
theorem parseIntPrefix_decDigits (n : Nat) :
    Security.parseIntPrefix 10 (Security.decDigits n) = some n := by
  obtain ⟨c, t, hct⟩ := List.exists_cons_of_ne_nil (decDigits_ne_nil n)
  have hall := decDigits_all_digit n
  rw [hct] at hall ⊢
  simp only [Security.parseIntPrefix]
  rw [digitValue_of_digit c (hall c (by simp))]
  show some (Security.parseIntPrefix.go 10 t (c.toNat - 48)) = some n
  rw [go_eq_fold t (c.toNat - 48) (fun x hx => hall x (by simp [hx]))]
  have := foldl_decDigits n 0
  rw [hct] at this
  simp only [List.foldl_cons, Nat.zero_mul, Nat.zero_add] at this
  rw [this]

/-- Helper: the whole-string radix-ten parse recovers `n` from its decimal
print. -/
theorem parseRadix_decDigits (n : Nat) :
    Security.parseRadix 10 (Security.decDigits n) = some n := by
  obtain ⟨c, t, hct⟩ := List.exists_cons_of_ne_nil (decDigits_ne_nil n)
  have hall := decDigits_all_digit n
  rw [hct] at hall ⊢
  simp only [Security.parseRadix]
  rw [digitsValue_eq_fold (c :: t) 0 hall]
  have := foldl_decDigits n 0
  rw [hct] at this
  rw [this]
  simp

/-- Helper: the WHATWG IPv4 number parser recovers `n` from its decimal
print. -/
theorem parseIPv4Number_decDigits (n : Nat) :
    Security.parseIPv4Number (Security.decDigits n) = some n := by
  by_cases hn : n = 0
  · rw [hn]
    decide
  · obtain ⟨c, t, hct⟩ := List.exists_cons_of_ne_nil (decDigits_ne_nil n)
    have hc0 : c ≠ '0' := by
      refine decDigits_head_ne_zero n (by omega) c ?_
      rw [hct]
      rfl
    rw [hct]
    unfold Security.parseIPv4Number
    split
    · rename_i heq
      exact List.noConfusion heq
    · rename_i heq
      exact absurd (List.cons.inj heq).1 hc0
    · rename_i heq
      exact absurd (List.cons.inj heq).1 hc0
    · rename_i heq
      exact absurd (List.cons.inj heq).1 hc0
    · rw [← hct]
      exact parseRadix_decDigits n

/-- Helper: heads of a two-element take. -/
theorem head_of_take_two (l : Security.Str) (x y : Char) (h : l.take 2 = [x, y]) :
    l.head? = some x := by
  cases l with
  | nil => simp at h
  | cons a t =>
    simp [List.take] at h
    simp [h.1]

/-- Helper: the JS octet parser of `isPrivateIPv4` recovers `n` from its
decimal print. -/
theorem jsOctetParse_decDigits (n : Nat) :
    Security.jsOctetParse (Security.decDigits n) = some n := by
  by_cases hn : n = 0
  · rw [hn]
    decide
  · obtain ⟨c, t, hct⟩ := List.exists_cons_of_ne_nil (decDigits_ne_nil n)
    have hc0 : c ≠ '0' := by
      refine decDigits_head_ne_zero n (by omega) c ?_
      rw [hct]
      rfl
    have h1 : ¬ ((Security.decDigits n).take 2 = ['0', 'x'] ∨
        (Security.decDigits n).take 2 = ['0', 'X']) := by
      intro hcon
      rcases hcon with h1 | h1 <;>
        (have hh := head_of_take_two _ _ _ h1; rw [hct] at hh; simp at hh; exact hc0 hh)
    have h2 : ¬ ((Security.decDigits n).length > 1 ∧
        (Security.decDigits n).head? = some '0') := by
      intro hcon
      have hh := hcon.2
      rw [hct] at hh
      simp at hh
      exact hc0 hh
    unfold Security.jsOctetParse
    rw [if_neg h1, if_neg h2]
    exact parseIntPrefix_decDigits n

/-- Helper: step equation of `splitOnDot` at a non-dot head. -/
theorem splitOnDot_cons_ne (c : Char) (t : Security.Str) (hc : c ≠ '.')
    (p : Security.Str) (ps : List Security.Str) (h : Security.splitOnDot t = p :: ps) :
    Security.splitOnDot (c :: t) = (c :: p) :: ps := by
  unfold Security.splitOnDot
  split
  · rename_i heq
    exact List.noConfusion heq
  · rename_i tl heq
    exact absurd (List.cons.inj heq).1 hc
  · rename_i cc tl hne heq
    obtain ⟨h1, h2⟩ := List.cons.inj heq
    subst h1
    rw [← h2, h]

/-- Helper: `splitOnDot` never returns the empty list. -/
theorem splitOnDot_ne_nil (l : Security.Str) : Security.splitOnDot l ≠ [] := by
  induction l with
  | nil => simp [Security.splitOnDot]
  | cons c t ih =>
    by_cases hc : c = '.'
    · subst hc
      simp [Security.splitOnDot]
    · cases hs : Security.splitOnDot t with
      | nil => exact absurd hs ih
      | cons p ps =>
        rw [splitOnDot_cons_ne c t hc p ps hs]
        simp

/-- Helper: a dot-free string is one whole split part. -/
theorem splitOnDot_no_dot (l : Security.Str) (h : '.' ∉ l) :
    Security.splitOnDot l = [l] := by
  induction l with
  | nil => rfl
  | cons c t ih =>
    have hc : c ≠ '.' := fun hcc => h (hcc ▸ List.mem_cons_self c t)
    have ht : '.' ∉ t := fun htt => h (List.mem_cons_of_mem c htt)
    exact splitOnDot_cons_ne c t hc t [] (ih ht)

/-- Helper: splitting a string that starts with a dot-free part followed by
a dot peels off that part. -/
theorem splitOnDot_append (s : Security.Str) (h : '.' ∉ s) :
    ∀ r : Security.Str, Security.splitOnDot (s ++ '.' :: r) = s :: Security.splitOnDot r := by
  induction s with
  | nil =>
    intro r
    rfl
  | cons c t ih =>
    intro r
    have hc : c ≠ '.' := fun hcc => h (hcc ▸ List.mem_cons_self c t)
    have ht : '.' ∉ t := fun htt => h (List.mem_cons_of_mem c htt)
    show Security.splitOnDot (c :: (t ++ '.' :: r)) = (c :: t) :: Security.splitOnDot r
    exact splitOnDot_cons_ne c (t ++ '.' :: r) hc t (Security.splitOnDot r) (ih ht r)

/-- Helper: splitting a dotted quad yields the four octet prints. -/
theorem splitOnDot_quadStr (a b c d : Nat) :
    Security.splitOnDot (Security.quadStr a b c d) =
      [Security.decDigits a, Security.decDigits b, Security.decDigits c,
       Security.decDigits d] := by
  unfold Security.quadStr
  rw [splitOnDot_append _ (dot_not_mem_decDigits a),
      splitOnDot_append _ (dot_not_mem_decDigits b),
      splitOnDot_append _ (dot_not_mem_decDigits c),
      splitOnDot_no_dot _ (dot_not_mem_decDigits d)]

/-- Helper: `isPrivateIPv4` on a dotted decimal quad of valid octets is
exactly the private-range ladder on the first three octets. -/
theorem isPrivateIPv4_quadStr (a b c d : Nat)
    (ha : a ≤ 255) (hb : b ≤ 255) (hc : c ≤ 255) (hd : d ≤ 255) :
    Security.isPrivateIPv4 (Security.quadStr a b c d) =
      Security.privateRangeLadder a b c := by
  unfold Security.isPrivateIPv4
  rw [splitOnDot_quadStr]
  dsimp only
  have hall : ∀ n : Nat, (Security.decDigits n).all Security.isDigitChar = true := by
    intro n
    rw [List.all_eq_true]
    exact decDigits_all_digit n
  rw [if_pos ⟨⟨decDigits_ne_nil a, hall a⟩, ⟨decDigits_ne_nil b, hall b⟩,
    ⟨decDigits_ne_nil c, hall c⟩, ⟨decDigits_ne_nil d, hall d⟩⟩]
  simp only [List.map, jsOctetParse_decDigits]
  have hany : ([some a, some b, some c, some d].any fun p =>
      decide (p = none ∨ ∃ v, p = some v ∧ v > 255)) = false := by
    simp
    omega
  rw [hany]
  simp only [Bool.false_eq_true, if_false]

set_option maxHeartbeats 1000000 in
/-- Helper: the claim's rejected ranges imply the source's range ladder. -/
theorem privateRangeLadder_of_rejected (a b c : Nat)
    (h : Claim.inRejectedRanges a b c) : Security.privateRangeLadder a b c = true := by
  unfold Claim.inRejectedRanges at h
  unfold Security.privateRangeLadder
  split_ifs with h1 h2 h3 h4 h5 h6 h7 h8 h9 h10 h11
  any_goals rfl
  exfalso
  rcases h with h | h | h | h | h | h | h | h | h | h | h
  · exact h1 h
  · exact h2 ⟨h.1, h.2.1, h.2.2⟩
  · exact h3 ⟨h.1, h.2⟩
  · exact h4 h
  · exact h5 ⟨h.1, h.2⟩
  · exact h6 h
  · exact h7 ⟨h.1, h.2.1, h.2.2⟩
  · exact h8 ⟨h.1, h.2.1, h.2.2⟩
  · exact h9 ⟨h.1, h.2.1, h.2.2⟩
  · exact h10 ⟨h.1, by omega, by omega⟩
  · exact h11 ⟨h.1, h.2⟩

/-- Helper: lowercasing is the identity on a decimal print. -/
theorem lowerStr_decDigits (n : Nat) :
    Security.lowerStr (Security.decDigits n) = Security.decDigits n := by
  have hdc : ∀ k : Nat, (Security.digitChar k).toLower = Security.digitChar k := by
    intro k
    unfold Security.digitChar
    split <;> decide
  induction n using Nat.strong_induction_on with
  | _ n ih =>
    rw [decDigits_eq]
    by_cases h : n < 10
    · simp [h, Security.lowerStr, hdc]
    · rw [if_neg h]
      unfold Security.lowerStr
      rw [List.map_append]
      have hd : n / 10 < n := Nat.div_lt_self (by omega) (by omega)
      have := ih (n / 10) hd
      unfold Security.lowerStr at this
      rw [this]
      simp [hdc]

/-- Helper: lowercasing is the identity on a dotted decimal quad. -/
theorem lowerStr_quadStr (a b c d : Nat) :
    Security.lowerStr (Security.quadStr a b c d) = Security.quadStr a b c d := by
  unfold Security.quadStr Security.lowerStr
  simp only [List.map_append, List.map_cons]
  have hdot : '.'.toLower = '.' := by decide
  have h1 := lowerStr_decDigits a
  have h2 := lowerStr_decDigits b
  have h3 := lowerStr_decDigits c
  have h4 := lowerStr_decDigits d
  unfold Security.lowerStr at h1 h2 h3 h4
  rw [h1, h2, h3, h4, hdot]

/-- Helper: a dotted decimal quad ends in a number. -/
theorem endsInNumber_quadStr (a b c d : Nat) :
    Security.endsInNumber (Security.quadStr a b c d) = true := by
  unfold Security.endsInNumber
  rw [splitOnDot_quadStr]
  have hlast : [Security.decDigits a, Security.decDigits b, Security.decDigits c,
      Security.decDigits d].getLast? = some (Security.decDigits d) := by
    simp
  dsimp only
  rw [hlast]
  dsimp only
  rw [if_neg (decDigits_ne_nil d)]
  simp only [decide_eq_true_eq]
  left
  refine ⟨decDigits_ne_nil d, ?_⟩
  rw [List.all_eq_true]
  exact decDigits_all_digit d

/-- Helper: the WHATWG IPv4 parser on a dotted decimal quad of valid octets
yields the combined 32-bit value. -/
theorem parseIPv4_quadStr (a b c d : Nat)
    (ha : a ≤ 255) (hb : b ≤ 255) (hc : c ≤ 255) (hd : d ≤ 255) :
    Security.parseIPv4 (Security.quadStr a b c d) =
      some (a * 16777216 + b * 65536 + c * 256 + d) := by
  unfold Security.parseIPv4
  rw [splitOnDot_quadStr]
  dsimp only
  have hlast : [Security.decDigits a, Security.decDigits b, Security.decDigits c,
      Security.decDigits d].getLast? = some (Security.decDigits d) := by simp
  rw [hlast]
  rw [if_neg (show ¬ (some (Security.decDigits d) = some ([] : Security.Str) ∧
      [Security.decDigits a, Security.decDigits b, Security.decDigits c,
       Security.decDigits d].length > 1) from by
    intro hcon
    exact decDigits_ne_nil d (Option.some.inj hcon.1))]
  rw [if_neg (show ¬ ([Security.decDigits a, Security.decDigits b, Security.decDigits c,
      Security.decDigits d].length > 4) from by simp)]
  simp only [List.map, parseIPv4Number_decDigits]
  have hsome : Security.allSomeL [some a, some b, some c, some d] = some [a, b, c, d] := rfl
  rw [hsome]
  dsimp only
  have hdrop : ([a, b, c, d].dropLast.any fun n => decide (n > 255)) = false := by
    simp
    omega
  rw [hdrop]
  simp only [Bool.false_eq_true, if_false]
  have hlast2 : [a, b, c, d].getLast? = some d := by simp
  rw [hlast2]
  dsimp only
  rw [if_neg (by
    simp only [List.length_cons, List.length_nil]
    norm_num
    omega)]
  have hcomb : Security.combineIPv4 [a, b, c, d] =
      a * 16777216 + b * 65536 + c * 256 + d := by
    have e1 : Security.combineIPv4 [a, b, c, d] =
        a * 256 ^ 3 + Security.combineIPv4 [b, c, d] := rfl
    have e2 : Security.combineIPv4 [b, c, d] =
        b * 256 ^ 2 + Security.combineIPv4 [c, d] := rfl
    have e3 : Security.combineIPv4 [c, d] =
        c * 256 ^ 1 + Security.combineIPv4 [d] := rfl
    have e4 : Security.combineIPv4 [d] = d := rfl
    have p3 : (256 : Nat) ^ 3 = 16777216 := by norm_num
    have p2 : (256 : Nat) ^ 2 = 65536 := by norm_num
    have p1 : (256 : Nat) ^ 1 = 256 := by norm_num
    rw [e1, e2, e3, e4, p3, p2, p1]
    omega
  rw [hcomb]

/-- Helper: the canonical hostname of a dotted decimal quad of valid octets
is the quad itself. -/
theorem canonicalHost_quadStr (a b c d : Nat)
    (ha : a ≤ 255) (hb : b ≤ 255) (hc : c ≤ 255) (hd : d ≤ 255) :
    Security.canonicalHost (Security.quadStr a b c d) =
      some (Security.quadStr a b c d) := by
  obtain ⟨c0, t0, h0⟩ := List.exists_cons_of_ne_nil (decDigits_ne_nil a)
  have hq : Security.quadStr a b c d =
      c0 :: (t0 ++ '.' :: (Security.decDigits b ++ '.' ::
        (Security.decDigits c ++ '.' :: Security.decDigits d))) := by
    unfold Security.quadStr
    rw [h0]
    rfl
  have hne : Security.quadStr a b c d ≠ [] := by
    rw [hq]
    exact List.cons_ne_nil _ _
  have hc0 : Security.isDigitChar c0 = true := by
    refine decDigits_all_digit a c0 ?_
    rw [h0]
    exact List.mem_cons_self _ _
  have hhead : ¬ (Security.quadStr a b c d).head? = some '[' := by
    rw [hq]
    simp only [List.head?_cons]
    intro hcon
    have := Option.some.inj hcon
    rw [this] at hc0
    simp [Security.isDigitChar] at hc0
  unfold Security.canonicalHost
  rw [if_neg hne, if_neg hhead]
  dsimp only
  rw [lowerStr_quadStr, endsInNumber_quadStr]
  simp only [if_true]
  rw [parseIPv4_quadStr a b c d ha hb hc hd]
  simp only [Option.map_some']
  congr 1
  unfold Security.serializeIPv4
  have e1 : (a * 16777216 + b * 65536 + c * 256 + d) / 16777216 % 256 = a := by omega
  have e2 : (a * 16777216 + b * 65536 + c * 256 + d) / 65536 % 256 = b := by omega
  have e3 : (a * 16777216 + b * 65536 + c * 256 + d) / 256 % 256 = c := by omega
  have e4 : (a * 16777216 + b * 65536 + c * 256 + d) % 256 = d := by omega
  rw [e1, e2, e3, e4]

/-- Helper: the WHATWG IPv4 number parser rejects a bracket-headed part. -/
theorem parseIPv4Number_bracket (p : Security.Str) :
    Security.parseIPv4Number ('[' :: p) = none := by
  unfold Security.parseIPv4Number
  split
  · rename_i heq
    exact List.noConfusion heq
  · rename_i rest heq
    exact absurd (List.cons.inj heq).1 (by decide)
  · rename_i rest heq
    exact absurd (List.cons.inj heq).1 (by decide)
  · rename_i rest heq
    exact absurd (List.cons.inj heq).1 (by decide)
  · unfold Security.parseRadix
    have hdv : Security.digitValue 10 '[' = none := by decide
    simp [Security.digitsValue, hdv]

/-- Helper: the WHATWG IPv4 parser fails on the empty host. -/
theorem parseIPv4_nil : Security.parseIPv4 [] = none := by decide

/-- Helper: the WHATWG IPv4 parser fails on a bracket-headed host. -/
theorem parseIPv4_bracket (l : Security.Str) (h : l.head? = some '[') :
    Security.parseIPv4 l = none := by
  obtain ⟨t, rfl⟩ : ∃ t, l = '[' :: t := by
    cases l with
    | nil => simp at h
    | cons x t =>
      simp only [List.head?_cons] at h
      exact ⟨t, by rw [Option.some.inj h]⟩
  cases hs : Security.splitOnDot t with
  | nil => exact absurd hs (splitOnDot_ne_nil t)
  | cons p ps =>
    have hsplit := splitOnDot_cons_ne '[' t (by decide) p ps hs
    unfold Security.parseIPv4
    rw [hsplit]
    dsimp only
    have hmain : ∀ (parts : List Security.Str), parts.head? = some ('[' :: p) →
        (if parts.length > 4 then none
         else
          match Security.allSomeL (parts.map Security.parseIPv4Number) with
          | none => none
          | some ns =>
            if ns.dropLast.any (fun n => n > 255) then none
            else
              match ns.getLast? with
              | none => none
              | some last =>
                if last ≥ 256 ^ (5 - ns.length) then none
                else some (Security.combineIPv4 ns)) = none := by
      intro parts hp
      by_cases hlen : parts.length > 4
      · rw [if_pos hlen]
      · rw [if_neg hlen]
        obtain ⟨q, qs, rfl⟩ : ∃ q qs, parts = q :: qs := by
          cases parts with
          | nil => simp at hp
          | cons q qs => exact ⟨q, qs, rfl⟩
        simp only [List.head?_cons] at hp
        rw [Option.some.inj hp]
        simp only [List.map, parseIPv4Number_bracket]
        rfl
    by_cases hdrop : (('[' :: p) :: ps).getLast? = some [] ∧ (('[' :: p) :: ps).length > 1
    · rw [if_pos hdrop]
      refine hmain _ ?_
      cases ps with
      | nil => simp at hdrop
      | cons q qs => rw [List.dropLast_cons₂]; simp
    · rw [if_neg hdrop]
      exact hmain _ (by simp)

/-- Helper: a URL whose canonical hostname is caught by `isPrivateIPv4` is
rejected by `isSafeUrl`, whatever its scheme. -/
theorem isSafeUrl_false_of_private (u : Security.UrlInput) (h : Security.Str)
    (hchost : Security.canonicalHost u.host = some h)
    (hp : Security.isPrivateIPv4 h = true) :
    Security.isSafeUrl u = false := by
  unfold Security.isSafeUrl Security.parseUrl
  rw [hchost]
  simp only [Option.map_some']
  split_ifs <;> simp_all

/-- C3: for every http or https URL whose hostname is a dotted decimal quad
of octet values lying in any of the ranges 10/8, 172.16/12, 192.168/16,
127/8, 169.254/16, 0/8, 100.64/10, 192.0.0/24, 192.88.99/24, 198.18/15 or
224/4, `isSafeUrl` returns false; in particular for the hostnames 10.0.0.1,
172.16.0.1, 192.168.1.1, 127.0.0.1, 169.254.1.1, 0.0.0.1 and 100.64.0.1. -/
theorem dotted_quad_private_rejected (p : Security.Str) (a b c d : Nat)
    (hp : p = "http:".toList ∨ p = "https:".toList)
    (ha : a ≤ 255) (hb : b ≤ 255) (hc : c ≤ 255) (hd : d ≤ 255)
    (hr : Claim.inRejectedRanges a b c) :
    Security.isSafeUrl ⟨p, Security.quadStr a b c d⟩ = false ∧
    Security.isSafeUrl ⟨p, "10.0.0.1".toList⟩ = false ∧
    Security.isSafeUrl ⟨p, "172.16.0.1".toList⟩ = false ∧
    Security.isSafeUrl ⟨p, "192.168.1.1".toList⟩ = false ∧
    Security.isSafeUrl ⟨p, "127.0.0.1".toList⟩ = false ∧
    Security.isSafeUrl ⟨p, "169.254.1.1".toList⟩ = false ∧
    Security.isSafeUrl ⟨p, "0.0.0.1".toList⟩ = false ∧
    Security.isSafeUrl ⟨p, "100.64.0.1".toList⟩ = false := by
  refine ⟨?_, ?_⟩
  · exact isSafeUrl_false_of_private ⟨p, Security.quadStr a b c d⟩
      (Security.quadStr a b c d)
      (canonicalHost_quadStr a b c d ha hb hc hd)
      (by rw [isPrivateIPv4_quadStr a b c d ha hb hc hd]
          exact privateRangeLadder_of_rejected a b c hr)
  · rcases hp with rfl | rfl
    · exact ⟨by decide, by decide, by decide, by decide, by decide, by decide, by decide⟩
    · exact ⟨by decide, by decide, by decide, by decide, by decide, by decide, by decide⟩

/-- Witness for C3: the http URL with hostname 10.0.0.1 (octets 10.0.0.1,
inside 10/8) is rejected, along with the seven listed hostnames. -/
theorem dotted_quad_private_rejected_witness :
    Security.isSafeUrl ⟨"http:".toList, Security.quadStr 10 0 0 1⟩ = false ∧
    Security.isSafeUrl ⟨"http:".toList, "10.0.0.1".toList⟩ = false ∧
    Security.isSafeUrl ⟨"http:".toList, "172.16.0.1".toList⟩ = false ∧
    Security.isSafeUrl ⟨"http:".toList, "192.168.1.1".toList⟩ = false ∧
    Security.isSafeUrl ⟨"http:".toList, "127.0.0.1".toList⟩ = false ∧
    Security.isSafeUrl ⟨"http:".toList, "169.254.1.1".toList⟩ = false ∧
    Security.isSafeUrl ⟨"http:".toList, "0.0.0.1".toList⟩ = false ∧
    Security.isSafeUrl ⟨"http:".toList, "100.64.0.1".toList⟩ = false :=
  dotted_quad_private_rejected ("http:".toList) 10 0 0 1 (Or.inl rfl)
    (by decide) (by decide) (by decide) (by decide) (Or.inl rfl)

/-- C2: for every hostname encoding an address in a rejected range — the URL
parser normalizes octal, hexadecimal and pure-decimal encodings to the
canonical dotted quad before the range check — the canonical hostname is the
serialized 4-octet value and `isSafeUrl` returns false; in particular for the
hostnames 0177.0.0.1, 0x7f.0.0.1 and 2130706433, all encodings of
127.0.0.1. -/
theorem encoded_ip_rejected (p host : Security.Str) (v : Nat)
    (hp : p = "http:".toList ∨ p = "https:".toList)
    (hend : Security.endsInNumber (Security.lowerStr host) = true)
    (hparse : Security.parseIPv4 (Security.lowerStr host) = some v)
    (hr : Claim.inRejectedRanges (v / 16777216 % 256) (v / 65536 % 256)
      (v / 256 % 256)) :
    Security.canonicalHost host = some (Security.serializeIPv4 v) ∧
    Security.isSafeUrl ⟨p, host⟩ = false ∧
    Security.isSafeUrl ⟨"http:".toList, "0177.0.0.1".toList⟩ = false ∧
    Security.isSafeUrl ⟨"http:".toList, "0x7f.0.0.1".toList⟩ = false ∧
    Security.isSafeUrl ⟨"http:".toList, "2130706433".toList⟩ = false := by
  have hne : host ≠ [] := by
    intro h0
    rw [h0] at hparse
    have he : Security.lowerStr [] = ([] : Security.Str) := rfl
    rw [he, parseIPv4_nil] at hparse
    exact Option.noConfusion hparse
  have hbr : ¬ host.head? = some '[' := by
    intro hh
    have hlow : (Security.lowerStr host).head? = some '[' := by
      cases host with
      | nil => simp at hh
      | cons x t =>
        simp only [List.head?_cons] at hh
        have hx : x = '[' := Option.some.inj hh
        subst hx
        unfold Security.lowerStr
        simp only [List.map_cons, List.head?_cons]
        decide
    rw [parseIPv4_bracket _ hlow] at hparse
    exact Option.noConfusion hparse
  have hch : Security.canonicalHost host = some (Security.serializeIPv4 v) := by
    unfold Security.canonicalHost
    rw [if_neg hne, if_neg hbr]
    dsimp only
    rw [if_pos hend, hparse]
    rfl
  refine ⟨hch, ?_, by decide, by decide, by decide⟩
  refine isSafeUrl_false_of_private ⟨p, host⟩ (Security.serializeIPv4 v) hch ?_
  unfold Security.serializeIPv4
  rw [isPrivateIPv4_quadStr _ _ _ _ (by omega) (by omega) (by omega) (by omega)]
  exact privateRangeLadder_of_rejected _ _ _ hr

/-- Witness for C2: the octal hostname 0177.0.0.1 canonicalizes to 127.0.0.1
and is rejected, as are the hexadecimal and pure-decimal encodings. -/
theorem encoded_ip_rejected_witness :
    Security.canonicalHost ("0177.0.0.1".toList) =
      some (Security.serializeIPv4 2130706433) ∧
    Security.isSafeUrl ⟨"http:".toList, "0177.0.0.1".toList⟩ = false ∧
    Security.isSafeUrl ⟨"http:".toList, "0177.0.0.1".toList⟩ = false ∧
    Security.isSafeUrl ⟨"http:".toList, "0x7f.0.0.1".toList⟩ = false ∧
    Security.isSafeUrl ⟨"http:".toList, "2130706433".toList⟩ = false :=
  encoded_ip_rejected ("http:".toList) ("0177.0.0.1".toList) 2130706433
    (Or.inl rfl) (by decide) (by decide)
    (by unfold Claim.inRejectedRanges; norm_num)

/-- C1: refuted as written — on an environment where the primary page fetch
succeeds and one JSON-LD block parses to the literal `null`, the schema
check's `@type` access throws a TypeError, the exception escapes the parallel
fan-out (there is no per-check recovery around it), and the route answers
500, a hard error, not 200 with a zero-scored entry. -/
theorem check_throw_not_recovered :
    Claim.envC1.pageFetch (Route.normalizeUrl ("https://example.com")) =
      some ⟨true, 200, "<html></html>"⟩ ∧
    Route.checkSchema Claim.envC1 ("<html></html>") = .error .typeError ∧
    Route.POST Claim.envC1 ("https://example.com") =
      ⟨500, .err Route.genericError⟩ := by
  refine ⟨rfl, rfl, ?_⟩
  decide

/-- C1 (amended): when the primary page fetch succeeds and the schema check
does not throw, the route answers 200 with entries for all ten checks in
order, and a failed robots.txt, llms.txt, sitemap or page-speed fetch is
recovered locally as a found=false, score-zero entry of that check. -/
theorem check_failure_recovered (env : Route.Env) (url : String)
    (pr : Route.HttpResp) (sr : Route.CheckResult)
    (hurl : url ≠ "")
    (hpage : env.pageFetch (Route.normalizeUrl url) = some pr)
    (hok : pr.ok = true)
    (hschema : Route.checkSchema env pr.text = .ok sr) :
    ∃ resp : Route.CheckResponse,
      Route.POST env url = ⟨200, .success resp⟩ ∧
      (Route.checksList resp.checks).map Prod.fst =
        ["schema", "robotsTxt", "llmsTxt", "sitemap", "openGraph",
         "semanticHTML", "headingHierarchy", "faqBlocks", "pageSpeed",
         "authorAuthority"] ∧
      (env.robotsFetch (Route.normalizeUrl url ++ "/robots.txt") = none →
        resp.checks.robotsTxt.found = false ∧
        resp.checks.robotsTxt.score = some 0) ∧
      (env.llmsFetch (Route.normalizeUrl url ++ "/llms.txt") = none →
        resp.checks.llmsTxt.found = false ∧
        resp.checks.llmsTxt.score = some 0) ∧
      ((∀ u, env.sitemapFetch u = none) →
        resp.checks.sitemap.found = false ∧
        resp.checks.sitemap.score = some 0) ∧
      (env.speedLoad (Route.normalizeUrl url) = none →
        resp.checks.pageSpeed.found = false ∧
        resp.checks.pageSpeed.score = some 0) := by
  simp only [Route.POST, Route.POSTt, hurl, hpage, hok, hschema, Bool.not_true,
    Bool.false_eq_true, if_false, ite_false]
  refine ⟨_, rfl, rfl, ?_, ?_, ?_, ?_⟩
  · intro h
    simp only [Route.checkRobotsTxt, h]
    exact ⟨by trivial, by trivial⟩
  · intro h
    simp only [Route.checkLlmsTxt, h]
    exact ⟨by trivial, by trivial⟩
  · intro h
    have hsm : ∀ rc, Route.checkSitemap env (Route.normalizeUrl url) rc =
        { found := false, score := some 0, details := "ไม่พบ Sitemap",
          data := [] } := by
      intro rc
      simp only [Route.checkSitemap, h]
    simp only [hsm]
    split_ifs <;> exact ⟨by trivial, by trivial⟩
  · intro h
    simp only [Route.checkPageSpeed, h]
    exact ⟨by trivial, by trivial⟩

/-- Witness for C1 (amended): a concrete environment whose page fetch
succeeds, whose schema check returns cleanly, and whose auxiliary fetches all
fail: the route answers 200, all ten entries are present, and the four
fetch-dependent checks are zero-scored. -/
theorem check_failure_recovered_witness :
    ("https://example.com" : String) ≠ "" ∧
    Claim.envC1ok.pageFetch (Route.normalizeUrl ("https://example.com")) =
      some ⟨true, 200, "<html></html>"⟩ ∧
    (⟨true, 200, "<html></html>"⟩ : Route.HttpResp).ok = true ∧
    Route.checkSchema Claim.envC1ok ("<html></html>") =
      .ok { found := false, score := some 0, details := "ไม่พบ Schema.org JSON-LD",
            data := [("types", .ls [])] } ∧
    (∃ resp : Route.CheckResponse,
      Route.POST Claim.envC1ok ("https://example.com") = ⟨200, .success resp⟩ ∧
      (Route.checksList resp.checks).map Prod.fst =
        ["schema", "robotsTxt", "llmsTxt", "sitemap", "openGraph",
         "semanticHTML", "headingHierarchy", "faqBlocks", "pageSpeed",
         "authorAuthority"] ∧
      (Claim.envC1ok.robotsFetch (Route.normalizeUrl ("https://example.com") ++ "/robots.txt") = none →
        resp.checks.robotsTxt.found = false ∧
        resp.checks.robotsTxt.score = some 0) ∧
      (Claim.envC1ok.llmsFetch (Route.normalizeUrl ("https://example.com") ++ "/llms.txt") = none →
        resp.checks.llmsTxt.found = false ∧
        resp.checks.llmsTxt.score = some 0) ∧
      ((∀ u, Claim.envC1ok.sitemapFetch u = none) →
        resp.checks.sitemap.found = false ∧
        resp.checks.sitemap.score = some 0) ∧
      (Claim.envC1ok.speedLoad (Route.normalizeUrl ("https://example.com")) = none →
        resp.checks.pageSpeed.found = false ∧
        resp.checks.pageSpeed.score = some 0)) :=
  ⟨by decide, rfl, rfl, rfl,
   check_failure_recovered Claim.envC1ok ("https://example.com")
     ⟨true, 200, "<html></html>"⟩
     { found := false, score := some 0, details := "ไม่พบ Schema.org JSON-LD",
       data := [("types", .ls [])] }
     (by decide) rfl rfl rfl⟩

/-- C9: refuted against the documented two-phase orchestration — the route
runs all ten checks in one parallel fan-out with the sitemap check receiving
no robots content, and the robots-informed sitemap re-run only merges its
`data` member: on an environment where robots.txt names an alternate sitemap
location (and the default location fails), the invocation trace records a
sitemap run with no robots content before the re-run, the sitemap check run
with the robots content finds the sitemap, yet the final sitemap entry keeps
found=false and score zero. -/
theorem sitemap_consumes_robots_violated :
    (Route.POSTt Claim.envC9 Claim.urlC9).2 =
      [.schemaRun, .robotsRun, .llmsRun, .sitemapRun none, .ogRun,
       .semanticRun, .headingRun, .faqRun, .speedRun, .authorRun,
       .sitemapRun (some Claim.rcC9)] ∧
    (Route.checkSitemap Claim.envC9 (Route.normalizeUrl Claim.urlC9)
      (some Claim.rcC9)).found = true ∧
    (Claim.respChecks (Route.POST Claim.envC9 Claim.urlC9).body).map
      (fun c => (c.sitemap.found, c.sitemap.score)) = some (false, some 0) ∧
    (Route.POST Claim.envC9 Claim.urlC9).status = 200 := by
  refine ⟨by decide, by decide, by decide, by decide⟩

